import Mathlib

/-!
# The application-level network multiplexer of `vm/network.go`

A shallow embedding of `NetworkManager` and `WrappedAppSender`.

* Go maps are total functions into `Option` (`none` = key absent); `delete`
  and assignment are `Function.update`.  A `map[uint32]*request` entry holding
  a nil pointer is not distinguished from an absent entry: the only reader,
  `handleSharedRequestID`, tests `req == nil`, which is true for both.
* `uint8` and `uint32` are `Fin 256` and `Fin 4294967296`; the Go `++` is
  written out as `(x + 1) % 2^w`.
* A value of the interface type `NetworkHandler` is `Option Impl`: `none` is
  the nil interface (the zero value a map index yields for an absent key),
  `some impl` a handler implementation.
* The mutex `n.l` is not part of the state: every method is one atomic step on
  the manager state.  Where a method takes and releases the lock relative to
  its callbacks and sends is given by a second embedding of each method that
  also yields its lock operations, callbacks and sends in program order
  (section "Lock scope"), proved to agree with the first.
* Logging is modelled only in the fan-out of `Connected` and `Disconnected`,
  where a callback's error is logged instead of returned.
* The range over the map `n.handlers` visits the keys in an order given as a
  list; keys without an entry are skipped.
* A manager method that ends in `return handler.M(args)` yields
  `Dispatch.invoke handler (Callback.M args)`; `Dispatch.returns` gives the
  value the method then returns, given what the callbacks return.
* The transport `n.sender` is a function from the send it is asked to perform
  to the error it returns (`none` = nil); a `set.Set[ids.NodeID]` is the list
  of its elements in iteration order.
-/

namespace vm

abbrev uint8 := Fin 256

abbrev uint32 := Fin 4294967296

/-- Go `x++` on a `uint8`: wraps from 255 to 0. -/
def incrUint8 (x : uint8) : uint8 := ⟨(x.val + 1) % 256, Nat.mod_lt _ (by decide)⟩

/-- Go `x++` on a `uint32`: wraps from 2^32 - 1 to 0. -/
def incrUint32 (x : uint32) : uint32 :=
  ⟨(x.val + 1) % 4294967296, Nat.mod_lt _ (by decide)⟩

/-- The struct `request`: the handler that issued a request and its real request id. -/
structure request where
  handler : uint8
  requestID : uint32
deriving DecidableEq, Repr

/-- The struct `nodeIDRequester`: the per-peer counter and virtual-id table. -/
structure nodeIDRequester where
  requestID : uint32
  requestMapper : uint32 → Option request

/-- A value of the Go interface type `NetworkHandler`; `none` is the nil interface. -/
abbrev NetworkHandler (Impl : Type) := Option Impl

/-- The mutable fields of the struct `NetworkManager`. -/
structure NetworkManager (NodeID Impl : Type) where
  handler : uint8
  pendingHandlers : uint8 → Bool
  handlers : uint8 → Option (NetworkHandler Impl)
  requesters : NodeID → Option nodeIDRequester

/-- The struct `WrappedAppSender`; the manager it points to is passed to its methods. -/
structure WrappedAppSender where
  handler : uint8
deriving DecidableEq, Repr

/-- One method call on a `NetworkHandler`, with its arguments (the context apart). -/
inductive Callback (NodeID ChainID Time Version : Type) where
  | Connected (nodeID : NodeID) (v : Version)
  | Disconnected (nodeID : NodeID)
  | AppGossip (nodeID : NodeID) (msg : List uint8)
  | AppRequest (nodeID : NodeID) (requestID : uint32) (deadline : Time) (request : List uint8)
  | AppRequestFailed (nodeID : NodeID) (requestID : uint32)
  | AppResponse (nodeID : NodeID) (requestID : uint32) (response : List uint8)
  | CrossChainAppRequest (chainID : ChainID) (requestID : uint32) (deadline : Time)
      (msg : List uint8)
  | CrossChainAppRequestFailed (chainID : ChainID) (requestID : uint32)
  | CrossChainAppResponse (chainID : ChainID) (requestID : uint32) (response : List uint8)
deriving DecidableEq, Repr

/-- How an inbound dispatch method ends: `dropped` is the branch that logs and
returns nil; `invoke handler cb` is `return handler.cb(...)`. -/
inductive Dispatch (NodeID ChainID Time Version Impl : Type) where
  | dropped
  | invoke (handler : NetworkHandler Impl) (cb : Callback NodeID ChainID Time Version)
deriving DecidableEq, Repr

/-- What a Go call yields: a panic, or a returned `error` (`none` = nil). -/
inductive GoResult (Err : Type) where
  | panicked
  | returned (err : Option Err)
deriving DecidableEq, Repr

/-- One method call on the transport `common.AppSender`, with its arguments. -/
inductive Send (NodeID ChainID : Type) where
  | SendAppRequest (nodeIDs : List NodeID) (requestID : uint32) (appRequestBytes : List uint8)
  | SendAppResponse (nodeID : NodeID) (requestID : uint32) (appResponseBytes : List uint8)
  | SendAppGossip (appGossipBytes : List uint8)
  | SendAppGossipSpecific (nodeIDs : List NodeID) (appGossipBytes : List uint8)
  | SendCrossChainAppRequest (chainID : ChainID) (requestID : uint32)
      (appRequestBytes : List uint8)
  | SendCrossChainAppResponse (chainID : ChainID) (requestID : uint32)
      (appResponseBytes : List uint8)
deriving DecidableEq, Repr

section Definitions

variable {NodeID ChainID Time Version Impl Err : Type} [DecidableEq NodeID]

/-- The handler callbacks a dispatch runs: none when dropped or when the
handler is the nil interface (the call panics before any callback runs). -/
def Dispatch.calls : Dispatch NodeID ChainID Time Version Impl →
    List (Impl × Callback NodeID ChainID Time Version)
  | Dispatch.dropped => []
  | Dispatch.invoke none _ => []
  | Dispatch.invoke (some impl) cb => [(impl, cb)]

/-- The value the manager method returns, `run impl cb` being what the callback
`cb` of implementation `impl` returns. A method call on the nil interface panics. -/
def Dispatch.returns (run : Impl → Callback NodeID ChainID Time Version → Option Err) :
    Dispatch NodeID ChainID Time Version Impl → GoResult Err
  | Dispatch.dropped => GoResult.returned none
  | Dispatch.invoke none _ => GoResult.panicked
  | Dispatch.invoke (some impl) cb => GoResult.returned (run impl cb)

/-- Embedding of `NewNetworkManager`: counter 0 and three empty maps. -/
def NewNetworkManager : NetworkManager NodeID Impl where
  handler := 0
  pendingHandlers := fun _ => false
  handlers := fun _ => none
  requesters := fun _ => none

/-- Embedding of `NetworkManager.Register`. -/
def NetworkManager.Register (n : NetworkManager NodeID Impl) :
    NetworkManager NodeID Impl × uint8 × WrappedAppSender :=
  let newHandler := n.handler
  ({ n with
      pendingHandlers := Function.update n.pendingHandlers newHandler true
      handler := incrUint8 n.handler },
    newHandler, ⟨newHandler⟩)

/-- Embedding of `NetworkManager.SetHandler`. -/
def NetworkManager.SetHandler (n : NetworkManager NodeID Impl) (handler : uint8)
    (h : NetworkHandler Impl) : NetworkManager NodeID Impl :=
  if n.pendingHandlers handler = false then
    n
  else
    { n with
      pendingHandlers := Function.update n.pendingHandlers handler false
      handlers := Function.update n.handlers handler (some h) }

/-- Embedding of `NetworkManager.getSharedRequestID`. -/
def NetworkManager.getSharedRequestID (n : NetworkManager NodeID Impl) (handler : uint8)
    (nodeID : NodeID) (requestID : uint32) : NetworkManager NodeID Impl × uint32 :=
  let obj : nodeIDRequester :=
    match n.requesters nodeID with
    | some obj => obj
    | none => { requestID := 0, requestMapper := fun _ => none }
  let newID := obj.requestID
  let obj1 : nodeIDRequester :=
    { requestID := incrUint32 obj.requestID
      requestMapper := Function.update obj.requestMapper newID (some ⟨handler, requestID⟩) }
  ({ n with requesters := Function.update n.requesters nodeID (some obj1) }, newID)

/-- Embedding of `NetworkManager.routeIncomingMessage`. -/
def NetworkManager.routeIncomingMessage (n : NetworkManager NodeID Impl) (msg : List uint8) :
    List uint8 × NetworkHandler Impl × Bool :=
  let l := msg.length
  if h : l = 0 then
    ([], none, false)
  else
    let handlerID := msg.get ⟨l - 1, Nat.sub_lt (Nat.pos_of_ne_zero h) Nat.one_pos⟩
    match n.handlers handlerID with
    | some handler => (msg.take (l - 1), handler, true)
    | none => (msg.take (l - 1), none, false)

/-- Embedding of `NetworkManager.handleSharedRequestID`. -/
def NetworkManager.handleSharedRequestID (n : NetworkManager NodeID Impl) (nodeID : NodeID)
    (requestID : uint32) : NetworkManager NodeID Impl × NetworkHandler Impl × uint32 × Bool :=
  match n.requesters nodeID with
  | none => (n, none, 0, false)
  | some obj =>
    match obj.requestMapper requestID with
    | none => (n, none, 0, false)
    | some req =>
      let obj1 : nodeIDRequester :=
        { obj with requestMapper := Function.update obj.requestMapper requestID none }
      let handler : NetworkHandler Impl :=
        match n.handlers req.handler with
        | some handler => handler
        | none => none
      ({ n with requesters := Function.update n.requesters nodeID (some obj1) },
        handler, req.requestID, true)

/-- Embedding of `NetworkManager.AppGossip`. -/
def NetworkManager.AppGossip (n : NetworkManager NodeID Impl) (nodeID : NodeID)
    (msg : List uint8) :
    NetworkManager NodeID Impl × Dispatch NodeID ChainID Time Version Impl :=
  match n.routeIncomingMessage msg with
  | (_, _, false) => (n, Dispatch.dropped)
  | (parsedMsg, handler, true) => (n, Dispatch.invoke handler (Callback.AppGossip nodeID parsedMsg))

/-- Embedding of `NetworkManager.AppRequest`. -/
def NetworkManager.AppRequest (n : NetworkManager NodeID Impl) (nodeID : NodeID)
    (requestID : uint32) (deadline : Time) (request : List uint8) :
    NetworkManager NodeID Impl × Dispatch NodeID ChainID Time Version Impl :=
  match n.routeIncomingMessage request with
  | (_, _, false) => (n, Dispatch.dropped)
  | (parsedMsg, handler, true) =>
    (n, Dispatch.invoke handler (Callback.AppRequest nodeID requestID deadline parsedMsg))

/-- Embedding of `NetworkManager.AppRequestFailed`. -/
def NetworkManager.AppRequestFailed (n : NetworkManager NodeID Impl) (nodeID : NodeID)
    (requestID : uint32) :
    NetworkManager NodeID Impl × Dispatch NodeID ChainID Time Version Impl :=
  match n.handleSharedRequestID nodeID requestID with
  | (n1, _, _, false) => (n1, Dispatch.dropped)
  | (n1, handler, cRequestID, true) =>
    (n1, Dispatch.invoke handler (Callback.AppRequestFailed nodeID cRequestID))

/-- Embedding of `NetworkManager.AppResponse`. -/
def NetworkManager.AppResponse (n : NetworkManager NodeID Impl) (nodeID : NodeID)
    (requestID : uint32) (response : List uint8) :
    NetworkManager NodeID Impl × Dispatch NodeID ChainID Time Version Impl :=
  match n.handleSharedRequestID nodeID requestID with
  | (n1, _, _, false) => (n1, Dispatch.dropped)
  | (n1, handler, cRequestID, true) =>
    (n1, Dispatch.invoke handler (Callback.AppResponse nodeID cRequestID response))

/-- Embedding of `NetworkManager.CrossChainAppRequest`. -/
def NetworkManager.CrossChainAppRequest (n : NetworkManager NodeID Impl) (chainID : ChainID)
    (requestID : uint32) (deadline : Time) (msg : List uint8) :
    NetworkManager NodeID Impl × Dispatch NodeID ChainID Time Version Impl :=
  match n.routeIncomingMessage msg with
  | (_, _, false) => (n, Dispatch.dropped)
  | (parsedMsg, handler, true) =>
    (n, Dispatch.invoke handler
      (Callback.CrossChainAppRequest chainID requestID deadline parsedMsg))

/-- Embedding of `NetworkManager.CrossChainAppRequestFailed`; `EmptyNodeID` is `ids.EmptyNodeID`. -/
def NetworkManager.CrossChainAppRequestFailed (EmptyNodeID : NodeID)
    (n : NetworkManager NodeID Impl) (chainID : ChainID) (requestID : uint32) :
    NetworkManager NodeID Impl × Dispatch NodeID ChainID Time Version Impl :=
  match n.handleSharedRequestID EmptyNodeID requestID with
  | (n1, _, _, false) => (n1, Dispatch.dropped)
  | (n1, handler, cRequestID, true) =>
    (n1, Dispatch.invoke handler (Callback.CrossChainAppRequestFailed chainID cRequestID))

/-- Embedding of `NetworkManager.CrossChainAppResponse`; `EmptyNodeID` is `ids.EmptyNodeID`. -/
def NetworkManager.CrossChainAppResponse (EmptyNodeID : NodeID)
    (n : NetworkManager NodeID Impl) (chainID : ChainID) (requestID : uint32)
    (response : List uint8) :
    NetworkManager NodeID Impl × Dispatch NodeID ChainID Time Version Impl :=
  match n.handleSharedRequestID EmptyNodeID requestID with
  | (n1, _, _, false) => (n1, Dispatch.dropped)
  | (n1, handler, cRequestID, true) =>
    (n1, Dispatch.invoke handler (Callback.CrossChainAppResponse chainID cRequestID response))

/-- The loop of `WrappedAppSender.SendAppRequest` over the destination peers:
the new manager state, the transport sends issued in order, and the returned error. -/
def WrappedAppSender.sendAppRequestLoop (w : WrappedAppSender)
    (sender : Send NodeID ChainID → Option Err) (requestID : uint32)
    (appRequestBytes : List uint8) :
    NetworkManager NodeID Impl → List NodeID →
      NetworkManager NodeID Impl × List (Send NodeID ChainID) × Option Err
  | n, [] => (n, [], none)
  | n, nodeID :: rest =>
    let r := n.getSharedRequestID w.handler nodeID requestID
    let s : Send NodeID ChainID := Send.SendAppRequest [nodeID] r.2 appRequestBytes
    match sender s with
    | some err => (r.1, [s], some err)
    | none =>
      let out := WrappedAppSender.sendAppRequestLoop w sender requestID appRequestBytes r.1 rest
      (out.1, s :: out.2.1, out.2.2)

/-- Embedding of `WrappedAppSender.SendAppRequest`. -/
def WrappedAppSender.SendAppRequest (w : WrappedAppSender)
    (sender : Send NodeID ChainID → Option Err) (n : NetworkManager NodeID Impl)
    (nodeIDs : List NodeID) (requestID : uint32) (appRequestBytes : List uint8) :
    NetworkManager NodeID Impl × List (Send NodeID ChainID) × Option Err :=
  w.sendAppRequestLoop sender requestID (appRequestBytes ++ [w.handler]) n nodeIDs

/-- Embedding of `WrappedAppSender.SendAppResponse`: the one transport send, and its result. -/
def WrappedAppSender.SendAppResponse (_w : WrappedAppSender)
    (sender : Send NodeID ChainID → Option Err) (nodeID : NodeID) (requestID : uint32)
    (appResponseBytes : List uint8) : List (Send NodeID ChainID) × Option Err :=
  let s : Send NodeID ChainID := Send.SendAppResponse nodeID requestID appResponseBytes
  ([s], sender s)

/-- Embedding of `WrappedAppSender.SendAppGossip`: the one transport send, and its result. -/
def WrappedAppSender.SendAppGossip (w : WrappedAppSender)
    (sender : Send NodeID ChainID → Option Err) (appGossipBytes : List uint8) :
    List (Send NodeID ChainID) × Option Err :=
  let s : Send NodeID ChainID := Send.SendAppGossip (appGossipBytes ++ [w.handler])
  ([s], sender s)

/-- Embedding of `WrappedAppSender.SendAppGossipSpecific`: the one transport send,
and its result. -/
def WrappedAppSender.SendAppGossipSpecific (w : WrappedAppSender)
    (sender : Send NodeID ChainID → Option Err) (nodeIDs : List NodeID)
    (appGossipBytes : List uint8) : List (Send NodeID ChainID) × Option Err :=
  let s : Send NodeID ChainID := Send.SendAppGossipSpecific nodeIDs (appGossipBytes ++ [w.handler])
  ([s], sender s)

/-- Embedding of `WrappedAppSender.SendCrossChainAppRequest`: the manager state (untouched),
the one transport send, and its result. -/
def WrappedAppSender.SendCrossChainAppRequest (w : WrappedAppSender)
    (sender : Send NodeID ChainID → Option Err) (n : NetworkManager NodeID Impl)
    (chainID : ChainID) (requestID : uint32) (appRequestBytes : List uint8) :
    NetworkManager NodeID Impl × List (Send NodeID ChainID) × Option Err :=
  let s : Send NodeID ChainID :=
    Send.SendCrossChainAppRequest chainID requestID (appRequestBytes ++ [w.handler])
  (n, [s], sender s)

/-- Embedding of `WrappedAppSender.SendCrossChainAppResponse`: the one transport
send, and its result. -/
def WrappedAppSender.SendCrossChainAppResponse (_w : WrappedAppSender)
    (sender : Send NodeID ChainID → Option Err) (chainID : ChainID) (requestID : uint32)
    (appResponseBytes : List uint8) : List (Send NodeID ChainID) × Option Err :=
  let s : Send NodeID ChainID := Send.SendCrossChainAppResponse chainID requestID appResponseBytes
  ([s], sender s)

/-- The virtual ids returned by successive `getSharedRequestID` calls for one
peer, one call per `(handler, requestID)` pair, and the final state. -/
def NetworkManager.getSharedRequestIDs (n : NetworkManager NodeID Impl) (nodeID : NodeID) :
    List (uint8 × uint32) → NetworkManager NodeID Impl × List uint32
  | [] => (n, [])
  | hr :: rest =>
    let r := n.getSharedRequestID hr.1 nodeID hr.2
    let out := NetworkManager.getSharedRequestIDs r.1 nodeID rest
    (out.1, r.2 :: out.2)

/-- The arguments of one `SendAppRequest` call, with the handler id of the sender used. -/
structure AppRequestCall (NodeID : Type) where
  handler : uint8
  nodeIDs : List NodeID
  requestID : uint32
  appRequestBytes : List uint8

/-- Successive `SendAppRequest` calls: the final state and all transport sends, in order. -/
def sendAppRequests (sender : Send NodeID ChainID → Option Err) :
    NetworkManager NodeID Impl → List (AppRequestCall NodeID) →
      NetworkManager NodeID Impl × List (Send NodeID ChainID)
  | n, [] => (n, [])
  | n, c :: rest =>
    let r := WrappedAppSender.SendAppRequest ⟨c.handler⟩ sender n c.nodeIDs c.requestID
      c.appRequestBytes
    let out := sendAppRequests sender r.1 rest
    (out.1, r.2.1 ++ out.2)

/-- The request ids carried by the `SendAppRequest` transport sends addressed to `p`. -/
def virtualIDsTo (p : NodeID) : List (Send NodeID ChainID) → List uint32
  | [] => []
  | Send.SendAppRequest nodeIDs requestID _ :: rest =>
    if p ∈ nodeIDs then requestID :: virtualIDsTo p rest else virtualIDsTo p rest
  | _ :: rest => virtualIDsTo p rest

/-- The HandlerIDs returned by `k` successive `Register` calls, and the final state. -/
def NetworkManager.registerMany :
    Nat → NetworkManager NodeID Impl → NetworkManager NodeID Impl × List uint8
  | 0, n => (n, [])
  | k + 1, n =>
    let r := n.Register
    let out := NetworkManager.registerMany k r.1
    (out.1, r.2.1 :: out.2)

/-- The four operations that write the manager state. -/
inductive Op (NodeID Impl : Type) where
  | Register
  | SetHandler (handler : uint8) (h : NetworkHandler Impl)
  | getSharedRequestID (handler : uint8) (nodeID : NodeID) (requestID : uint32)
  | handleSharedRequestID (nodeID : NodeID) (requestID : uint32)

/-- The state after one operation. -/
def Op.apply : Op NodeID Impl → NetworkManager NodeID Impl → NetworkManager NodeID Impl
  | Op.Register, n => n.Register.1
  | Op.SetHandler handler h, n => n.SetHandler handler h
  | Op.getSharedRequestID handler nodeID requestID, n =>
    (n.getSharedRequestID handler nodeID requestID).1
  | Op.handleSharedRequestID nodeID requestID, n => (n.handleSharedRequestID nodeID requestID).1

/-- The state after a list of operations, first to last. -/
def applyOps (n : NetworkManager NodeID Impl) (ops : List (Op NodeID Impl)) :
    NetworkManager NodeID Impl :=
  ops.foldl (fun m op => op.apply m) n

/-- Whether the operation is a `getSharedRequestID` for peer `p`. -/
def Op.allocatesFor (p : NodeID) : Op NodeID Impl → Bool
  | Op.getSharedRequestID _ nodeID _ => decide (nodeID = p)
  | _ => false

/-- The value of a peer's virtual-id counter: 0 while the peer has no record. -/
def NetworkManager.counter (n : NetworkManager NodeID Impl) (p : NodeID) : uint32 :=
  match n.requesters p with
  | some obj => obj.requestID
  | none => 0

/-- The `k` successive values a `uint32` counter takes from `c` on. -/
def idsFrom (c : uint32) : Nat → List uint32
  | 0 => []
  | k + 1 => c :: idsFrom (incrUint32 c) k

/-- No mapping is recorded for `(p, v)`. -/
def NetworkManager.unmapped (n : NetworkManager NodeID Impl) (p : NodeID) (v : uint32) : Prop :=
  ∀ obj, n.requesters p = some obj → obj.requestMapper v = none

/-- The per-peer record after one allocation by handler 0 with real id 7:
counter 1 and the one mapping `0 -> (handler 0, real id 7)`. -/
def exampleRequester : nodeIDRequester where
  requestID := incrUint32 0
  requestMapper := Function.update (fun _ => none) 0 (some ⟨0, 7⟩)

/-- A fresh manager on which handler 0 was registered, bound to implementation
11, and has one request with real id 7 outstanding to peer 5. -/
def exampleManager : NetworkManager Nat Nat :=
  (((NewNetworkManager : NetworkManager Nat Nat).Register.1.SetHandler 0
    (some 11)).getSharedRequestID 0 5 7).1

/-- What a `Connected` or `Disconnected` fan-out does: the handler callbacks
run, in order, each with the id its handler is bound under; the errors handed
to the logger, each with that id; and what the method yields. -/
structure FanOut (NodeID ChainID Time Version Impl Err : Type) where
  calls : List (uint8 × Impl × Callback NodeID ChainID Time Version)
  logged : List (uint8 × Err)
  result : GoResult Err
deriving DecidableEq, Repr

/-- The loop `for k, handler := range n.handlers` of `Connected` and
`Disconnected`, followed by `return nil`.  `order` is the order in which the
range visits the keys; a key without an entry is not visited.  A callback's
error is logged and the loop goes on; a nil handler makes the method call panic. -/
def NetworkManager.fanOut (n : NetworkManager NodeID Impl)
    (run : Impl → Callback NodeID ChainID Time Version → Option Err)
    (cb : Callback NodeID ChainID Time Version) :
    List uint8 → FanOut NodeID ChainID Time Version Impl Err
  | [] => ⟨[], [], GoResult.returned none⟩
  | k :: rest =>
    match n.handlers k with
    | none => NetworkManager.fanOut n run cb rest
    | some none => ⟨[], [], GoResult.panicked⟩
    | some (some impl) =>
      let out := NetworkManager.fanOut n run cb rest
      match run impl cb with
      | some err => ⟨(k, impl, cb) :: out.calls, (k, err) :: out.logged, out.result⟩
      | none => ⟨(k, impl, cb) :: out.calls, out.logged, out.result⟩

/-- Embedding of `NetworkManager.Connected`; `order` is the iteration order of the map range. -/
def NetworkManager.Connected (n : NetworkManager NodeID Impl) (order : List uint8)
    (run : Impl → Callback NodeID ChainID Time Version → Option Err) (nodeID : NodeID)
    (v : Version) : NetworkManager NodeID Impl × FanOut NodeID ChainID Time Version Impl Err :=
  (n, n.fanOut run (Callback.Connected nodeID v) order)

/-- Embedding of `NetworkManager.Disconnected`; `order` is the iteration order of the map range. -/
def NetworkManager.Disconnected (n : NetworkManager NodeID Impl) (order : List uint8)
    (run : Impl → Callback NodeID ChainID Time Version → Option Err) (nodeID : NodeID) :
    NetworkManager NodeID Impl × FanOut NodeID ChainID Time Version Impl Err :=
  (n, n.fanOut run (Callback.Disconnected nodeID) order)

/-- A fresh manager on which handlers 0, 1 and 2 were registered and bound to
the implementations 10, 11 and 12. -/
def exampleThree : NetworkManager Nat Nat :=
  ((((NewNetworkManager : NetworkManager Nat Nat).Register.1.Register.1.Register.1.SetHandler 0
    (some 10)).SetHandler 1 (some 11)).SetHandler 2 (some 12))

/-- A fresh manager on which handler 0 was registered but not bound, after its
sender's `SendAppRequest` to peer 5 with real id 7 and payload `[1]`. -/
def exampleUnbound : NetworkManager Nat Nat :=
  (WrappedAppSender.SendAppRequest (NewNetworkManager : NetworkManager Nat Nat).Register.2.2
    (fun (_ : Send Nat Nat) => (none : Option Nat))
    (NewNetworkManager : NetworkManager Nat Nat).Register.1 [5] 7 [1]).1

/-- The number of `Register` calls among the operations. -/
def registerCount : List (Op NodeID Impl) → Nat
  | [] => 0
  | Op.Register :: rest => registerCount rest + 1
  | _ :: rest => registerCount rest

/-- The registry after `m ≤ 256` `Register` calls: the counter is `m mod 256`,
every pending or bound id is below `m`, and no pending id is bound. -/
def NetworkManager.registryInv (n : NetworkManager NodeID Impl) (m : Nat) : Prop :=
  m ≤ 256 ∧ n.handler.val = m % 256 ∧
  (∀ k, n.pendingHandlers k = true → k.val < m) ∧
  (∀ k, n.handlers k ≠ none → k.val < m) ∧
  (∀ k, n.pendingHandlers k = true → n.handlers k = none)

/-- Whether the operation is a `handleSharedRequestID` for peer `p` and virtual id `v`. -/
def Op.resolves (p : NodeID) (v : uint32) : Op NodeID Impl → Bool
  | Op.handleSharedRequestID nodeID requestID => decide (nodeID = p) && decide (requestID = v)
  | _ => false

/-- Whether the operation is a `SetHandler` for handler id `h`. -/
def Op.setsHandler (h : uint8) : Op NodeID Impl → Bool
  | Op.SetHandler handler _ => decide (handler = h)
  | _ => false

/-- The number of `getSharedRequestID` calls for peer `p` among the operations. -/
def allocCount (p : NodeID) (ops : List (Op NodeID Impl)) : Nat :=
  ops.countP (fun op => op.allocatesFor p)

/-- The request `(h, r)` is outstanding under `(p, v)`: `p`'s record maps `v` to
`(h, r)`, its counter is `j + 1` steps past `v`, and `h` is bound to `impl`. -/
def NetworkManager.outstanding (n : NetworkManager NodeID Impl) (p : NodeID) (v : uint32)
    (h : uint8) (r : uint32) (impl : Impl) (j : Nat) : Prop :=
  ∃ obj, n.requesters p = some obj ∧ obj.requestMapper v = some ⟨h, r⟩ ∧
    obj.requestID.val = (v.val + 1 + j) % 4294967296 ∧ n.handlers h = some (some impl)

/-! ### Lock scope

Each method is embedded a second time together with the sequence of
operations on the mutex `n.l`, handler callbacks and transport sends it
performs, in program order.  `n.l.Lock()` followed by `defer n.l.Unlock()`
holds the lock until the enclosing function returns. -/

/-- An operation on the mutex `n.l`, a handler callback that runs, or a transport send. -/
inductive LockEvent (NodeID ChainID Time Version Impl : Type) where
  | Lock
  | Unlock
  | RLock
  | RUnlock
  | callback (impl : Impl) (cb : Callback NodeID ChainID Time Version)
  | send (s : Send NodeID ChainID)
deriving DecidableEq, Repr

/-- Whether every callback and send of the sequence happens while the lock is
not held, `held` being the number of holds at its start. -/
def callsOutsideLock : Nat → List (LockEvent NodeID ChainID Time Version Impl) → Bool
  | _, [] => true
  | held, LockEvent.Lock :: rest => callsOutsideLock (held + 1) rest
  | held, LockEvent.RLock :: rest => callsOutsideLock (held + 1) rest
  | held, LockEvent.Unlock :: rest => callsOutsideLock (held - 1) rest
  | held, LockEvent.RUnlock :: rest => callsOutsideLock (held - 1) rest
  | held, LockEvent.callback _ _ :: rest => held == 0 && callsOutsideLock held rest
  | held, LockEvent.send _ :: rest => held == 0 && callsOutsideLock held rest

/-- Whether every callback and send of the sequence happens while the lock is
held, `held` being the number of holds at its start. -/
def callsUnderLock : Nat → List (LockEvent NodeID ChainID Time Version Impl) → Bool
  | _, [] => true
  | held, LockEvent.Lock :: rest => callsUnderLock (held + 1) rest
  | held, LockEvent.RLock :: rest => callsUnderLock (held + 1) rest
  | held, LockEvent.Unlock :: rest => callsUnderLock (held - 1) rest
  | held, LockEvent.RUnlock :: rest => callsUnderLock (held - 1) rest
  | held, LockEvent.callback _ _ :: rest => held != 0 && callsUnderLock held rest
  | held, LockEvent.send _ :: rest => held != 0 && callsUnderLock held rest

/-- The handler callbacks of the sequence, in order. -/
def callbacksOf : List (LockEvent NodeID ChainID Time Version Impl) →
    List (Impl × Callback NodeID ChainID Time Version)
  | [] => []
  | LockEvent.callback impl cb :: rest => (impl, cb) :: callbacksOf rest
  | _ :: rest => callbacksOf rest

/-- The transport sends of the sequence, in order. -/
def sendsOf : List (LockEvent NodeID ChainID Time Version Impl) → List (Send NodeID ChainID)
  | [] => []
  | LockEvent.send s :: rest => s :: sendsOf rest
  | _ :: rest => sendsOf rest

/-- A function that starts with `n.l.Lock(); defer n.l.Unlock()`: the lock is
taken, the body runs, and the lock is released when the function returns. -/
def deferUnlock (body : List (LockEvent NodeID ChainID Time Version Impl)) :
    List (LockEvent NodeID ChainID Time Version Impl) :=
  LockEvent.Lock :: body ++ [LockEvent.Unlock]

/-- A function that starts with `n.l.RLock(); defer n.l.RUnlock()`. -/
def deferRUnlock (body : List (LockEvent NodeID ChainID Time Version Impl)) :
    List (LockEvent NodeID ChainID Time Version Impl) :=
  LockEvent.RLock :: body ++ [LockEvent.RUnlock]

/-- The method call `handler.cb(...)`: the callback runs, unless `handler` is the
nil interface, in which case the call panics and no callback runs. -/
def invokeEvents (handler : NetworkHandler Impl) (cb : Callback NodeID ChainID Time Version) :
    List (LockEvent NodeID ChainID Time Version Impl) :=
  match handler with
  | none => []
  | some impl => [LockEvent.callback impl cb]

/-- `Register` with its events: the whole body runs under the lock. -/
def NetworkManager.RegisterTraced (n : NetworkManager NodeID Impl) :
    (NetworkManager NodeID Impl × uint8 × WrappedAppSender) ×
      List (LockEvent NodeID ChainID Time Version Impl) :=
  (n.Register, deferUnlock [])

/-- `SetHandler` with its events: the whole body runs under the lock. -/
def NetworkManager.SetHandlerTraced (n : NetworkManager NodeID Impl) (handler : uint8)
    (h : NetworkHandler Impl) :
    NetworkManager NodeID Impl × List (LockEvent NodeID ChainID Time Version Impl) :=
  (n.SetHandler handler h, deferUnlock [])

/-- `getSharedRequestID` with its events: the whole body runs under the lock. -/
def NetworkManager.getSharedRequestIDTraced (n : NetworkManager NodeID Impl) (handler : uint8)
    (nodeID : NodeID) (requestID : uint32) :
    (NetworkManager NodeID Impl × uint32) ×
      List (LockEvent NodeID ChainID Time Version Impl) :=
  (n.getSharedRequestID handler nodeID requestID, deferUnlock [])

/-- `routeIncomingMessage` with its events: the whole body runs under the read lock. -/
def NetworkManager.routeIncomingMessageTraced (n : NetworkManager NodeID Impl)
    (msg : List uint8) :
    (List uint8 × NetworkHandler Impl × Bool) ×
      List (LockEvent NodeID ChainID Time Version Impl) :=
  (n.routeIncomingMessage msg, deferRUnlock [])

/-- `handleSharedRequestID` with its events: the whole body runs under the lock. -/
def NetworkManager.handleSharedRequestIDTraced (n : NetworkManager NodeID Impl)
    (nodeID : NodeID) (requestID : uint32) :
    (NetworkManager NodeID Impl × NetworkHandler Impl × uint32 × Bool) ×
      List (LockEvent NodeID ChainID Time Version Impl) :=
  (n.handleSharedRequestID nodeID requestID, deferUnlock [])

/-- `AppGossip` with its events: `routeIncomingMessage` runs and returns, then
the handler is called. -/
def NetworkManager.AppGossipTraced (n : NetworkManager NodeID Impl) (nodeID : NodeID)
    (msg : List uint8) :
    (NetworkManager NodeID Impl × Dispatch NodeID ChainID Time Version Impl) ×
      List (LockEvent NodeID ChainID Time Version Impl) :=
  match n.routeIncomingMessageTraced msg with
  | ((_, _, false), ev) => ((n, Dispatch.dropped), ev)
  | ((parsedMsg, handler, true), ev) =>
    ((n, Dispatch.invoke handler (Callback.AppGossip nodeID parsedMsg)),
      ev ++ invokeEvents handler (Callback.AppGossip nodeID parsedMsg))

/-- `AppRequest` with its events. -/
def NetworkManager.AppRequestTraced (n : NetworkManager NodeID Impl) (nodeID : NodeID)
    (requestID : uint32) (deadline : Time) (request : List uint8) :
    (NetworkManager NodeID Impl × Dispatch NodeID ChainID Time Version Impl) ×
      List (LockEvent NodeID ChainID Time Version Impl) :=
  match n.routeIncomingMessageTraced request with
  | ((_, _, false), ev) => ((n, Dispatch.dropped), ev)
  | ((parsedMsg, handler, true), ev) =>
    ((n, Dispatch.invoke handler (Callback.AppRequest nodeID requestID deadline parsedMsg)),
      ev ++ invokeEvents handler (Callback.AppRequest nodeID requestID deadline parsedMsg))

/-- `AppRequestFailed` with its events: `handleSharedRequestID` runs and
returns, then the handler is called. -/
def NetworkManager.AppRequestFailedTraced (n : NetworkManager NodeID Impl) (nodeID : NodeID)
    (requestID : uint32) :
    (NetworkManager NodeID Impl × Dispatch NodeID ChainID Time Version Impl) ×
      List (LockEvent NodeID ChainID Time Version Impl) :=
  match n.handleSharedRequestIDTraced nodeID requestID with
  | ((n1, _, _, false), ev) => ((n1, Dispatch.dropped), ev)
  | ((n1, handler, cRequestID, true), ev) =>
    ((n1, Dispatch.invoke handler (Callback.AppRequestFailed nodeID cRequestID)),
      ev ++ invokeEvents handler (Callback.AppRequestFailed nodeID cRequestID))

/-- `AppResponse` with its events. -/
def NetworkManager.AppResponseTraced (n : NetworkManager NodeID Impl) (nodeID : NodeID)
    (requestID : uint32) (response : List uint8) :
    (NetworkManager NodeID Impl × Dispatch NodeID ChainID Time Version Impl) ×
      List (LockEvent NodeID ChainID Time Version Impl) :=
  match n.handleSharedRequestIDTraced nodeID requestID with
  | ((n1, _, _, false), ev) => ((n1, Dispatch.dropped), ev)
  | ((n1, handler, cRequestID, true), ev) =>
    ((n1, Dispatch.invoke handler (Callback.AppResponse nodeID cRequestID response)),
      ev ++ invokeEvents handler (Callback.AppResponse nodeID cRequestID response))

/-- `CrossChainAppRequest` with its events. -/
def NetworkManager.CrossChainAppRequestTraced (n : NetworkManager NodeID Impl)
    (chainID : ChainID) (requestID : uint32) (deadline : Time) (msg : List uint8) :
    (NetworkManager NodeID Impl × Dispatch NodeID ChainID Time Version Impl) ×
      List (LockEvent NodeID ChainID Time Version Impl) :=
  match n.routeIncomingMessageTraced msg with
  | ((_, _, false), ev) => ((n, Dispatch.dropped), ev)
  | ((parsedMsg, handler, true), ev) =>
    ((n, Dispatch.invoke handler
        (Callback.CrossChainAppRequest chainID requestID deadline parsedMsg)),
      ev ++ invokeEvents handler
        (Callback.CrossChainAppRequest chainID requestID deadline parsedMsg))

/-- `CrossChainAppRequestFailed` with its events. -/
def NetworkManager.CrossChainAppRequestFailedTraced (EmptyNodeID : NodeID)
    (n : NetworkManager NodeID Impl) (chainID : ChainID) (requestID : uint32) :
    (NetworkManager NodeID Impl × Dispatch NodeID ChainID Time Version Impl) ×
      List (LockEvent NodeID ChainID Time Version Impl) :=
  match n.handleSharedRequestIDTraced EmptyNodeID requestID with
  | ((n1, _, _, false), ev) => ((n1, Dispatch.dropped), ev)
  | ((n1, handler, cRequestID, true), ev) =>
    ((n1, Dispatch.invoke handler (Callback.CrossChainAppRequestFailed chainID cRequestID)),
      ev ++ invokeEvents handler (Callback.CrossChainAppRequestFailed chainID cRequestID))

/-- `CrossChainAppResponse` with its events. -/
def NetworkManager.CrossChainAppResponseTraced (EmptyNodeID : NodeID)
    (n : NetworkManager NodeID Impl) (chainID : ChainID) (requestID : uint32)
    (response : List uint8) :
    (NetworkManager NodeID Impl × Dispatch NodeID ChainID Time Version Impl) ×
      List (LockEvent NodeID ChainID Time Version Impl) :=
  match n.handleSharedRequestIDTraced EmptyNodeID requestID with
  | ((n1, _, _, false), ev) => ((n1, Dispatch.dropped), ev)
  | ((n1, handler, cRequestID, true), ev) =>
    ((n1, Dispatch.invoke handler (Callback.CrossChainAppResponse chainID cRequestID response)),
      ev ++ invokeEvents handler (Callback.CrossChainAppResponse chainID cRequestID response))

/-- The range loop of `Connected` and `Disconnected` with its events: one
callback per bound handler visited; a nil handler makes the call panic and
ends the loop. -/
def NetworkManager.fanOutTraced (n : NetworkManager NodeID Impl)
    (run : Impl → Callback NodeID ChainID Time Version → Option Err)
    (cb : Callback NodeID ChainID Time Version) :
    List uint8 → FanOut NodeID ChainID Time Version Impl Err ×
      List (LockEvent NodeID ChainID Time Version Impl)
  | [] => (⟨[], [], GoResult.returned none⟩, [])
  | k :: rest =>
    match n.handlers k with
    | none => NetworkManager.fanOutTraced n run cb rest
    | some none => (⟨[], [], GoResult.panicked⟩, [])
    | some (some impl) =>
      let out := NetworkManager.fanOutTraced n run cb rest
      match run impl cb with
      | some err =>
        (⟨(k, impl, cb) :: out.1.calls, (k, err) :: out.1.logged, out.1.result⟩,
          LockEvent.callback impl cb :: out.2)
      | none =>
        (⟨(k, impl, cb) :: out.1.calls, out.1.logged, out.1.result⟩,
          LockEvent.callback impl cb :: out.2)

/-- `Connected` with its events: `RLock`, `defer RUnlock`, and the range loop
in between. -/
def NetworkManager.ConnectedTraced (n : NetworkManager NodeID Impl) (order : List uint8)
    (run : Impl → Callback NodeID ChainID Time Version → Option Err) (nodeID : NodeID)
    (v : Version) :
    (NetworkManager NodeID Impl × FanOut NodeID ChainID Time Version Impl Err) ×
      List (LockEvent NodeID ChainID Time Version Impl) :=
  let body := n.fanOutTraced run (Callback.Connected nodeID v) order
  ((n, body.1), deferRUnlock body.2)

/-- `Disconnected` with its events: `RLock`, `defer RUnlock`, and the range
loop in between. -/
def NetworkManager.DisconnectedTraced (n : NetworkManager NodeID Impl) (order : List uint8)
    (run : Impl → Callback NodeID ChainID Time Version → Option Err) (nodeID : NodeID) :
    (NetworkManager NodeID Impl × FanOut NodeID ChainID Time Version Impl Err) ×
      List (LockEvent NodeID ChainID Time Version Impl) :=
  let body := n.fanOutTraced run (Callback.Disconnected nodeID) order
  ((n, body.1), deferRUnlock body.2)

/-- The loop of `SendAppRequest` with its events: per peer visited,
`getSharedRequestID` runs and returns, then the transport send is performed. -/
def WrappedAppSender.sendAppRequestLoopTraced (w : WrappedAppSender)
    (sender : Send NodeID ChainID → Option Err) (requestID : uint32)
    (appRequestBytes : List uint8) :
    NetworkManager NodeID Impl → List NodeID →
      (NetworkManager NodeID Impl × List (Send NodeID ChainID) × Option Err) ×
        List (LockEvent NodeID ChainID Time Version Impl)
  | n, [] => ((n, [], none), [])
  | n, nodeID :: rest =>
    let r : (NetworkManager NodeID Impl × uint32) ×
        List (LockEvent NodeID ChainID Time Version Impl) :=
      n.getSharedRequestIDTraced w.handler nodeID requestID
    let s : Send NodeID ChainID := Send.SendAppRequest [nodeID] r.1.2 appRequestBytes
    match sender s with
    | some err => ((r.1.1, [s], some err), r.2 ++ [LockEvent.send s])
    | none =>
      let out :=
        WrappedAppSender.sendAppRequestLoopTraced w sender requestID appRequestBytes r.1.1 rest
      ((out.1.1, s :: out.1.2.1, out.1.2.2), r.2 ++ [LockEvent.send s] ++ out.2)

/-- `SendAppRequest` with its events. -/
def WrappedAppSender.SendAppRequestTraced (w : WrappedAppSender)
    (sender : Send NodeID ChainID → Option Err) (n : NetworkManager NodeID Impl)
    (nodeIDs : List NodeID) (requestID : uint32) (appRequestBytes : List uint8) :
    (NetworkManager NodeID Impl × List (Send NodeID ChainID) × Option Err) ×
      List (LockEvent NodeID ChainID Time Version Impl) :=
  w.sendAppRequestLoopTraced sender requestID (appRequestBytes ++ [w.handler]) n nodeIDs

/-- `SendAppResponse` with its events: one transport send, no lock operation. -/
def WrappedAppSender.SendAppResponseTraced (_w : WrappedAppSender)
    (sender : Send NodeID ChainID → Option Err) (nodeID : NodeID) (requestID : uint32)
    (appResponseBytes : List uint8) :
    (List (Send NodeID ChainID) × Option Err) ×
      List (LockEvent NodeID ChainID Time Version Impl) :=
  let s : Send NodeID ChainID := Send.SendAppResponse nodeID requestID appResponseBytes
  (([s], sender s), [LockEvent.send s])

/-- `SendAppGossip` with its events: one transport send, no lock operation. -/
def WrappedAppSender.SendAppGossipTraced (w : WrappedAppSender)
    (sender : Send NodeID ChainID → Option Err) (appGossipBytes : List uint8) :
    (List (Send NodeID ChainID) × Option Err) ×
      List (LockEvent NodeID ChainID Time Version Impl) :=
  let s : Send NodeID ChainID := Send.SendAppGossip (appGossipBytes ++ [w.handler])
  (([s], sender s), [LockEvent.send s])

/-- `SendAppGossipSpecific` with its events: one transport send, no lock operation. -/
def WrappedAppSender.SendAppGossipSpecificTraced (w : WrappedAppSender)
    (sender : Send NodeID ChainID → Option Err) (nodeIDs : List NodeID)
    (appGossipBytes : List uint8) :
    (List (Send NodeID ChainID) × Option Err) ×
      List (LockEvent NodeID ChainID Time Version Impl) :=
  let s : Send NodeID ChainID := Send.SendAppGossipSpecific nodeIDs (appGossipBytes ++ [w.handler])
  (([s], sender s), [LockEvent.send s])

/-- `SendCrossChainAppRequest` with its events: one transport send, no lock operation. -/
def WrappedAppSender.SendCrossChainAppRequestTraced (w : WrappedAppSender)
    (sender : Send NodeID ChainID → Option Err) (n : NetworkManager NodeID Impl)
    (chainID : ChainID) (requestID : uint32) (appRequestBytes : List uint8) :
    (NetworkManager NodeID Impl × List (Send NodeID ChainID) × Option Err) ×
      List (LockEvent NodeID ChainID Time Version Impl) :=
  let s : Send NodeID ChainID :=
    Send.SendCrossChainAppRequest chainID requestID (appRequestBytes ++ [w.handler])
  ((n, [s], sender s), [LockEvent.send s])

/-- `SendCrossChainAppResponse` with its events: one transport send, no lock operation. -/
def WrappedAppSender.SendCrossChainAppResponseTraced (_w : WrappedAppSender)
    (sender : Send NodeID ChainID → Option Err) (chainID : ChainID) (requestID : uint32)
    (appResponseBytes : List uint8) :
    (List (Send NodeID ChainID) × Option Err) ×
      List (LockEvent NodeID ChainID Time Version Impl) :=
  let s : Send NodeID ChainID := Send.SendCrossChainAppResponse chainID requestID appResponseBytes
  (([s], sender s), [LockEvent.send s])

/-- A traced run `t` agrees with the method it traces: it yields `result`, and
its events contain exactly the handler callbacks `calls` and the transport
sends `sends`, in order. -/
def tracedAs {α : Type} (t : α × List (LockEvent NodeID ChainID Time Version Impl))
    (result : α) (calls : List (Impl × Callback NodeID ChainID Time Version))
    (sends : List (Send NodeID ChainID)) : Prop :=
  t.1 = result ∧ callbacksOf t.2 = calls ∧ sendsOf t.2 = sends

end Definitions

section Theorems

variable {NodeID ChainID Time Version Impl Err : Type} [DecidableEq NodeID]

/-! ## Counters and virtual ids -/

theorem getSharedRequestID_snd (n : NetworkManager NodeID Impl) (h : uint8) (p : NodeID)
    (r : uint32) : (n.getSharedRequestID h p r).2 = n.counter p := by
  unfold NetworkManager.getSharedRequestID NetworkManager.counter
  cases n.requesters p <;> rfl

theorem counter_getSharedRequestID_same (n : NetworkManager NodeID Impl) (h : uint8)
    (p : NodeID) (r : uint32) :
    (n.getSharedRequestID h p r).1.counter p = incrUint32 (n.counter p) := by
  unfold NetworkManager.getSharedRequestID NetworkManager.counter
  cases n.requesters p <;> simp

theorem counter_getSharedRequestID_other (n : NetworkManager NodeID Impl) (h : uint8)
    (p q : NodeID) (r : uint32) (hq : p ≠ q) :
    (n.getSharedRequestID h q r).1.counter p = n.counter p := by
  unfold NetworkManager.getSharedRequestID NetworkManager.counter
  simp [Function.update_apply, hq]

theorem idsFrom_length (c : uint32) (k : Nat) : (idsFrom c k).length = k := by
  induction k generalizing c with
  | zero => rfl
  | succ k ih => simp [idsFrom, ih]

theorem idsFrom_append (c : uint32) (a b : Nat) :
    idsFrom c (a + b) = idsFrom c a ++ idsFrom (incrUint32^[a] c) b := by
  induction a generalizing c with
  | zero => simp [idsFrom]
  | succ a ih =>
    have : a + 1 + b = (a + b) + 1 := by omega
    rw [this]
    simp [idsFrom, ih]

theorem idsFrom_val (c : uint32) (k i : Nat) (hi : i < (idsFrom c k).length) :
    ((idsFrom c k).get ⟨i, hi⟩).val = (c.val + i) % 4294967296 := by
  induction k generalizing c i with
  | zero => simp [idsFrom] at hi
  | succ k ih =>
    cases i with
    | zero => simp [idsFrom, Nat.mod_eq_of_lt c.isLt]
    | succ i =>
      simp only [idsFrom, List.get_cons_succ]
      rw [ih]
      simp only [incrUint32]
      omega

theorem idsFrom_nodup (c : uint32) (k : Nat) (hk : k ≤ 4294967296) : (idsFrom c k).Nodup := by
  rw [List.nodup_iff_injective_get]
  intro i j hij
  have hi := idsFrom_val c k i.val i.isLt
  have hj := idsFrom_val c k j.val j.isLt
  have hl := idsFrom_length c k
  have h1 : i.val < k := by have := i.isLt; omega
  have h2 : j.val < k := by have := j.isLt; omega
  have : ((idsFrom c k).get i).val = ((idsFrom c k).get j).val := by rw [hij]
  apply Fin.ext
  have e1 : (idsFrom c k).get i = (idsFrom c k).get ⟨i.val, i.isLt⟩ := rfl
  have e2 : (idsFrom c k).get j = (idsFrom c k).get ⟨j.val, j.isLt⟩ := rfl
  rw [e1, e2, hi, hj] at this
  omega

theorem getSharedRequestIDs_snd (n : NetworkManager NodeID Impl) (p : NodeID)
    (reqs : List (uint8 × uint32)) :
    (n.getSharedRequestIDs p reqs).2 = idsFrom (n.counter p) reqs.length := by
  induction reqs generalizing n with
  | nil => rfl
  | cons hr rest ih =>
    simp only [NetworkManager.getSharedRequestIDs, List.length_cons, idsFrom]
    rw [ih, getSharedRequestID_snd, counter_getSharedRequestID_same]

theorem SendAppRequest_single (w : WrappedAppSender) (sender : Send NodeID ChainID → Option Err)
    (n : NetworkManager NodeID Impl) (p : NodeID) (r : uint32) (P : List uint8) :
    (w.SendAppRequest sender n [p] r P).1 = (n.getSharedRequestID w.handler p r).1 ∧
    (w.SendAppRequest sender n [p] r P).2.1 =
      [Send.SendAppRequest [p] (n.getSharedRequestID w.handler p r).2 (P ++ [w.handler])] := by
  simp only [WrappedAppSender.SendAppRequest, WrappedAppSender.sendAppRequestLoop]
  cases sender _ <;> exact ⟨rfl, rfl⟩

theorem virtualIDsTo_append (p : NodeID) (a b : List (Send NodeID ChainID)) :
    virtualIDsTo p (a ++ b) = virtualIDsTo p a ++ virtualIDsTo p b := by
  induction a with
  | nil => rfl
  | cons s rest ih =>
    cases s with
    | SendAppRequest nodeIDs requestID bytes =>
      by_cases hp : p ∈ nodeIDs <;> simp [virtualIDsTo, hp, ih]
    | _ => simpa [virtualIDsTo] using ih

theorem sendAppRequestLoop_ids (w : WrappedAppSender) (sender : Send NodeID ChainID → Option Err)
    (r : uint32) (bytes : List uint8) (p : NodeID) (n : NetworkManager NodeID Impl)
    (nodeIDs : List NodeID) :
    ∃ m, virtualIDsTo p (w.sendAppRequestLoop sender r bytes n nodeIDs).2.1
          = idsFrom (n.counter p) m ∧
      (w.sendAppRequestLoop sender r bytes n nodeIDs).1.counter p
          = incrUint32^[m] (n.counter p) := by
  induction nodeIDs generalizing n with
  | nil => exact ⟨0, rfl, rfl⟩
  | cons q rest ih =>
    obtain ⟨m, h1, h2⟩ := ih (n.getSharedRequestID w.handler q r).1
    simp only [WrappedAppSender.sendAppRequestLoop]
    by_cases hq : p = q
    · subst hq
      rw [counter_getSharedRequestID_same] at h1 h2
      cases sender _ with
      | some e =>
        refine ⟨1, ?_, ?_⟩
        · simp [virtualIDsTo, idsFrom, getSharedRequestID_snd]
        · simp [counter_getSharedRequestID_same]
      | none =>
        refine ⟨m + 1, ?_, ?_⟩
        · simp [virtualIDsTo, idsFrom, getSharedRequestID_snd, h1]
        · simp [h2]
    · rw [counter_getSharedRequestID_other _ _ _ _ _ hq] at h1 h2
      cases sender _ with
      | some e =>
        refine ⟨0, ?_, ?_⟩
        · simp [virtualIDsTo, idsFrom, hq]
        · simp [counter_getSharedRequestID_other _ _ _ _ _ hq]
      | none =>
        refine ⟨m, ?_, ?_⟩
        · simp [virtualIDsTo, hq, h1]
        · simp [h2]

theorem sendAppRequests_ids (sender : Send NodeID ChainID → Option Err) (p : NodeID)
    (n : NetworkManager NodeID Impl) (calls : List (AppRequestCall NodeID)) :
    ∃ m, virtualIDsTo p (sendAppRequests sender n calls).2 = idsFrom (n.counter p) m := by
  induction calls generalizing n with
  | nil => exact ⟨0, rfl⟩
  | cons c rest ih =>
    obtain ⟨a, h1, h2⟩ := sendAppRequestLoop_ids ⟨c.handler⟩ sender c.requestID
      (c.appRequestBytes ++ [c.handler]) p n c.nodeIDs
    obtain ⟨b, h3⟩ := ih (WrappedAppSender.SendAppRequest ⟨c.handler⟩ sender n c.nodeIDs
      c.requestID c.appRequestBytes).1
    refine ⟨a + b, ?_⟩
    simp only [sendAppRequests, virtualIDsTo_append, idsFrom_append]
    rw [h3]
    simp only [WrappedAppSender.SendAppRequest]
    rw [h1, h2]

theorem sendAppRequests_single (sender : Send NodeID ChainID → Option Err) (p : NodeID)
    (n : NetworkManager NodeID Impl) (cs : List (uint8 × uint32 × List uint8)) :
    (sendAppRequests sender n (cs.map fun c => ⟨c.1, [p], c.2.1, c.2.2⟩)).2.length = cs.length ∧
    virtualIDsTo p (sendAppRequests sender n (cs.map fun c => ⟨c.1, [p], c.2.1, c.2.2⟩)).2
      = (n.getSharedRequestIDs p (cs.map fun c => (c.1, c.2.1))).2 := by
  induction cs generalizing n with
  | nil => exact ⟨rfl, rfl⟩
  | cons c rest ih =>
    obtain ⟨e1, e2⟩ := SendAppRequest_single ⟨c.1⟩ sender n p c.2.1 c.2.2
    obtain ⟨i1, i2⟩ := ih (n.getSharedRequestID c.1 p c.2.1).1
    simp only [List.map_cons, sendAppRequests, NetworkManager.getSharedRequestIDs,
      virtualIDsTo_append, List.length_append, e1, e2, i1, i2]
    simp [virtualIDsTo]
    omega

/-! ## Resolution of virtual ids -/

theorem handleSharedRequestID_no_record (n : NetworkManager NodeID Impl) (p : NodeID)
    (v : uint32) (hr : n.requesters p = none) :
    n.handleSharedRequestID p v = (n, none, 0, false) := by
  simp [NetworkManager.handleSharedRequestID, hr]

theorem handleSharedRequestID_no_mapping (n : NetworkManager NodeID Impl) (p : NodeID)
    (v : uint32) (obj : nodeIDRequester) (hr : n.requesters p = some obj)
    (hm : obj.requestMapper v = none) :
    n.handleSharedRequestID p v = (n, none, 0, false) := by
  simp [NetworkManager.handleSharedRequestID, hr, hm]

theorem handleSharedRequestID_mapping (n : NetworkManager NodeID Impl) (p : NodeID)
    (v : uint32) (obj : nodeIDRequester) (req : request) (hr : n.requesters p = some obj)
    (hm : obj.requestMapper v = some req) :
    n.handleSharedRequestID p v =
      ({ n with
          requesters := Function.update n.requesters p
            (some { obj with requestMapper := Function.update obj.requestMapper v none }) },
        (match n.handlers req.handler with
          | some handler => handler
          | none => none),
        req.requestID, true) := by
  simp [NetworkManager.handleSharedRequestID, hr, hm]

theorem handleSharedRequestID_of_unmapped (n : NetworkManager NodeID Impl) (p : NodeID)
    (v : uint32) (h : n.unmapped p v) :
    n.handleSharedRequestID p v = (n, none, 0, false) := by
  cases hr : n.requesters p with
  | none => exact handleSharedRequestID_no_record n p v hr
  | some obj => exact handleSharedRequestID_no_mapping n p v obj hr (h obj hr)

theorem unmapped_handleSharedRequestID (n : NetworkManager NodeID Impl) (p q : NodeID)
    (v u : uint32) (h : n.unmapped p v) : (n.handleSharedRequestID q u).1.unmapped p v := by
  cases hr : n.requesters q with
  | none => rw [handleSharedRequestID_no_record n q u hr]; exact h
  | some obj =>
    cases hm : obj.requestMapper u with
    | none => rw [handleSharedRequestID_no_mapping n q u obj hr hm]; exact h
    | some req =>
      rw [handleSharedRequestID_mapping n q u obj req hr hm]
      intro o ho
      by_cases hq : p = q
      · subst hq
        simp at ho
        subst ho
        have := h obj hr
        by_cases hv : v = u <;> simp [Function.update_apply, hv, this]
      · simp [Function.update_apply, hq] at ho
        exact h o ho

theorem unmapped_of_found (n : NetworkManager NodeID Impl) (p : NodeID) (v : uint32)
    (h : (n.handleSharedRequestID p v).2.2.2 = true) :
    (n.handleSharedRequestID p v).1.unmapped p v := by
  cases hr : n.requesters p with
  | none => rw [handleSharedRequestID_no_record n p v hr] at h; simp at h
  | some obj =>
    cases hm : obj.requestMapper v with
    | none => rw [handleSharedRequestID_no_mapping n p v obj hr hm] at h; simp at h
    | some req =>
      rw [handleSharedRequestID_mapping n p v obj req hr hm]
      intro o ho
      simp at ho
      subst ho
      simp

theorem unmapped_apply (n : NetworkManager NodeID Impl) (p : NodeID) (v : uint32)
    (op : Op NodeID Impl) (hop : op.allocatesFor p = false) (h : n.unmapped p v) :
    (op.apply n).unmapped p v := by
  cases op with
  | Register => exact h
  | SetHandler handler hd =>
    simp only [Op.apply, NetworkManager.SetHandler]
    split
    · exact h
    · exact h
  | getSharedRequestID handler q r =>
    have hq : ¬ p = q := by
      intro e
      simp [Op.allocatesFor, e] at hop
    intro o ho
    simp [Op.apply, NetworkManager.getSharedRequestID, Function.update_apply, hq] at ho
    exact h o ho
  | handleSharedRequestID q u => exact unmapped_handleSharedRequestID n p q v u h

theorem unmapped_applyOps (p : NodeID) (v : uint32) (ops : List (Op NodeID Impl))
    (n : NetworkManager NodeID Impl)
    (hops : ∀ op ∈ ops, op.allocatesFor p = false) (h : n.unmapped p v) :
    (applyOps n ops).unmapped p v := by
  induction ops generalizing n with
  | nil => exact h
  | cons op rest ih =>
    simp only [applyOps, List.foldl_cons]
    exact ih (op.apply n) (fun o ho => hops o (List.mem_cons_of_mem _ ho))
      (unmapped_apply n p v op (hops op (List.mem_cons_self _ _)) h)

/-! ## C2 -/

/-- C2: from every manager state and for every peer `p`, `k ≤ 2^32` successive
`getSharedRequestID` calls for `p`, by any handlers with any real request ids,
return `k` pairwise distinct virtual ids; `k` single-destination
`SendAppRequest` calls to `p` issue `k` transport sends carrying exactly those
ids; and in any run of `SendAppRequest` calls (any handlers, destination sets,
payloads and transport errors) the ids carried by the sends addressed to `p`
are pairwise distinct as long as there are at most `2^32` of them. -/
theorem C2_virtual_ids_pairwise_distinct :
    (∀ (n : NetworkManager NodeID Impl) (p : NodeID) (reqs : List (uint8 × uint32)),
      reqs.length ≤ 4294967296 →
      (n.getSharedRequestIDs p reqs).2.length = reqs.length ∧
      (n.getSharedRequestIDs p reqs).2.Nodup) ∧
    (∀ (sender : Send NodeID ChainID → Option Err) (n : NetworkManager NodeID Impl) (p : NodeID)
        (cs : List (uint8 × uint32 × List uint8)),
      (sendAppRequests sender n (cs.map fun c => ⟨c.1, [p], c.2.1, c.2.2⟩)).2.length
        = cs.length ∧
      virtualIDsTo p (sendAppRequests sender n (cs.map fun c => ⟨c.1, [p], c.2.1, c.2.2⟩)).2
        = (n.getSharedRequestIDs p (cs.map fun c => (c.1, c.2.1))).2) ∧
    (∀ (sender : Send NodeID ChainID → Option Err) (n : NetworkManager NodeID Impl) (p : NodeID)
        (calls : List (AppRequestCall NodeID)),
      (virtualIDsTo p (sendAppRequests sender n calls).2).length ≤ 4294967296 →
      (virtualIDsTo p (sendAppRequests sender n calls).2).Nodup) := by
  refine ⟨?_, ?_, ?_⟩
  · intro n p reqs hk
    rw [getSharedRequestIDs_snd]
    exact ⟨idsFrom_length _ _, idsFrom_nodup _ _ hk⟩
  · intro sender n p cs
    exact sendAppRequests_single sender p n cs
  · intro sender n p calls hk
    obtain ⟨m, hm⟩ := sendAppRequests_ids sender p n calls
    rw [hm] at hk ⊢
    rw [idsFrom_length] at hk
    exact idsFrom_nodup _ _ hk

theorem C2_virtual_ids_pairwise_distinct_witness :
    ([(0, 7), (1, 7), (0, 7)] : List (uint8 × uint32)).length ≤ 4294967296 ∧
    ((NewNetworkManager : NetworkManager Nat Nat).getSharedRequestIDs 5
      [(0, 7), (1, 7), (0, 7)]).2.Nodup ∧
    (virtualIDsTo 5 (sendAppRequests (fun _ => (none : Option Nat))
      (NewNetworkManager : NetworkManager Nat Nat)
      [⟨0, [5, 6], 7, [1]⟩, ⟨1, [5], 7, []⟩] :
        NetworkManager Nat Nat × List (Send Nat Nat)).2).length ≤ 4294967296 ∧
    (virtualIDsTo 5 (sendAppRequests (fun _ => (none : Option Nat))
      (NewNetworkManager : NetworkManager Nat Nat)
      [⟨0, [5, 6], 7, [1]⟩, ⟨1, [5], 7, []⟩] :
        NetworkManager Nat Nat × List (Send Nat Nat)).2).Nodup :=
  ⟨by decide,
    ((@C2_virtual_ids_pairwise_distinct Nat Nat Nat Nat _).1 _ 5 _ (by decide)).2,
    by decide,
    (@C2_virtual_ids_pairwise_distinct Nat Nat Nat Nat _).2.2 _ _ 5 _ (by decide)⟩


/-! ## C3 -/

/-- C3: once `handleSharedRequestID p v` has reported found, after any
operations that contain no `getSharedRequestID` for `p`, a second
`handleSharedRequestID p v` reports not found, and `AppResponse p v b` and
`AppRequestFailed p v` take the dropped branch: the state is unchanged, no
handler callback runs and nil is returned. -/
theorem C3_resolution_single_use (n : NetworkManager NodeID Impl) (p : NodeID) (v : uint32)
    (ops : List (Op NodeID Impl)) (b : List uint8)
    (run : Impl → Callback NodeID ChainID Time Version → Option Err)
    (hfound : (n.handleSharedRequestID p v).2.2.2 = true)
    (hops : ∀ op ∈ ops, op.allocatesFor p = false) :
    ((applyOps (n.handleSharedRequestID p v).1 ops).handleSharedRequestID p v).2.2.2 = false ∧
    (applyOps (n.handleSharedRequestID p v).1 ops).AppResponse p v b =
      (applyOps (n.handleSharedRequestID p v).1 ops,
        (Dispatch.dropped : Dispatch NodeID ChainID Time Version Impl)) ∧
    (applyOps (n.handleSharedRequestID p v).1 ops).AppRequestFailed p v =
      (applyOps (n.handleSharedRequestID p v).1 ops,
        (Dispatch.dropped : Dispatch NodeID ChainID Time Version Impl)) ∧
    (Dispatch.dropped : Dispatch NodeID ChainID Time Version Impl).calls = [] ∧
    (Dispatch.dropped : Dispatch NodeID ChainID Time Version Impl).returns run
      = GoResult.returned none := by
  have hu := unmapped_applyOps p v ops _ hops (unmapped_of_found n p v hfound)
  have hh := handleSharedRequestID_of_unmapped _ p v hu
  refine ⟨?_, ?_, ?_, rfl, rfl⟩
  · rw [hh]
  · simp only [NetworkManager.AppResponse, hh]
  · simp only [NetworkManager.AppRequestFailed, hh]

theorem C3_resolution_single_use_witness :
    (((NewNetworkManager : NetworkManager Nat Nat).getSharedRequestID 0 5
        7).1.handleSharedRequestID 5 0).2.2.2 = true ∧
    ((applyOps (((NewNetworkManager : NetworkManager Nat Nat).getSharedRequestID 0 5
        7).1.handleSharedRequestID 5 0).1
        [Op.Register, Op.getSharedRequestID 0 6 7]).handleSharedRequestID 5 0).2.2.2 = false :=
  ⟨by decide,
    (@C3_resolution_single_use Nat Nat Nat Nat Nat Nat _
      ((NewNetworkManager : NetworkManager Nat Nat).getSharedRequestID 0 5 7).1 5 0
      [Op.Register, Op.getSharedRequestID 0 6 7] [] (fun _ _ => none)
      (by decide) (by decide)).1⟩

end Theorems

section Registry

variable {NodeID Impl : Type}

/-! ## C4 -/

theorem registerMany_length (k : Nat) (n : NetworkManager NodeID Impl) :
    (n.registerMany k).2.length = k := by
  induction k generalizing n with
  | zero => rfl
  | succ k ih => simp [NetworkManager.registerMany, ih]

theorem registerMany_val (k : Nat) (n : NetworkManager NodeID Impl) (i : Nat)
    (hi : i < (n.registerMany k).2.length) :
    ((n.registerMany k).2.get ⟨i, hi⟩).val = (n.handler.val + i) % 256 := by
  induction k generalizing n i with
  | zero => simp [NetworkManager.registerMany] at hi
  | succ k ih =>
    cases i with
    | zero =>
      simp [NetworkManager.registerMany, NetworkManager.Register, Nat.mod_eq_of_lt n.handler.isLt]
    | succ i =>
      simp only [NetworkManager.registerMany, List.get_cons_succ]
      rw [ih]
      simp only [NetworkManager.Register, incrUint8]
      omega

/-- C4 (amended): on a manager created by `NewNetworkManager`, for every
`k ≤ 256` the HandlerIDs returned by `k` successive `Register` calls are
`0, 1, ..., k - 1`: they start at 0, are strictly increasing and pairwise
distinct. -/
theorem C4_register_ids_first_256 (k : Nat) (hk : k ≤ 256) :
    ((NewNetworkManager : NetworkManager NodeID Impl).registerMany k).2.map Fin.val
      = List.range k ∧
    ((NewNetworkManager : NetworkManager NodeID Impl).registerMany k).2.Pairwise (· < ·) ∧
    ((NewNetworkManager : NetworkManager NodeID Impl).registerMany k).2.Nodup := by
  have hmap : ((NewNetworkManager : NetworkManager NodeID Impl).registerMany k).2.map Fin.val
      = List.range k := by
    apply List.ext_get
    · simp [registerMany_length]
    · intro i h1 h2
      have hlen := registerMany_length k (NewNetworkManager : NetworkManager NodeID Impl)
      have hi : i < k := by simpa [registerMany_length] using h1
      simp only [List.get_eq_getElem, List.getElem_map, List.getElem_range]
      have := registerMany_val k (NewNetworkManager : NetworkManager NodeID Impl) i
        (by rw [hlen]; exact hi)
      simp only [List.get_eq_getElem] at this
      rw [this]
      simp only [NewNetworkManager]
      show (0 + i) % 256 = i
      omega
  have hpw : ((NewNetworkManager : NetworkManager NodeID Impl).registerMany k).2.Pairwise
      (· < ·) := by
    have h := List.pairwise_lt_range k
    rw [← hmap, List.pairwise_map] at h
    exact h.imp (fun hab => hab)
  exact ⟨hmap, hpw, hpw.imp (fun hab => ne_of_lt hab)⟩

theorem C4_register_ids_first_256_witness :
    3 ≤ 256 ∧ ((NewNetworkManager : NetworkManager Nat Nat).registerMany 3).2.map Fin.val
      = List.range 3 :=
  ⟨by decide, (@C4_register_ids_first_256 Nat Nat 3 (by decide)).1⟩

/-- The claim C4 as stated fails at `n = 257`: the `uint8` counter wraps, the
257th `Register` returns 0 again, so the returned ids are not pairwise distinct. -/
theorem C4_register_wraps_counterexample :
    ¬ ((NewNetworkManager : NetworkManager Nat Nat).registerMany 257).2.Nodup := by
  intro h
  have hlen := registerMany_length 257 (NewNetworkManager : NetworkManager Nat Nat)
  have h0 := registerMany_val 257 (NewNetworkManager : NetworkManager Nat Nat) 0
    (by rw [hlen]; decide)
  have h256 := registerMany_val 257 (NewNetworkManager : NetworkManager Nat Nat) 256
    (by rw [hlen]; decide)
  rw [List.nodup_iff_injective_get] at h
  have heq : ((NewNetworkManager : NetworkManager Nat Nat).registerMany 257).2.get
      ⟨0, by rw [hlen]; decide⟩ =
      ((NewNetworkManager : NetworkManager Nat Nat).registerMany 257).2.get
      ⟨256, by rw [hlen]; decide⟩ := by
    apply Fin.ext
    rw [h0, h256]
    rfl
  have := congrArg Fin.val (h heq)
  simp at this

/-! ## C5 -/

/-- C5: `SetHandler id h` changes the manager state if and only if `id` is in
`pendingHandlers`.  When it is, afterwards `handlers[id] = h`, `id` is not
pending, and every other handler-table and pending entry, the id counter and
the requester table are unchanged; when it is not, the whole state (handler
table and pending set included) is unchanged. -/
theorem C5_SetHandler_binds_iff_pending (n : NetworkManager NodeID Impl) (id : uint8)
    (h : NetworkHandler Impl) :
    (n.pendingHandlers id = true →
      (n.SetHandler id h).handlers id = some h ∧
      (n.SetHandler id h).pendingHandlers id = false ∧
      (∀ j, j ≠ id → (n.SetHandler id h).handlers j = n.handlers j ∧
        (n.SetHandler id h).pendingHandlers j = n.pendingHandlers j) ∧
      (n.SetHandler id h).handler = n.handler ∧
      (n.SetHandler id h).requesters = n.requesters) ∧
    (n.pendingHandlers id = false → n.SetHandler id h = n) ∧
    (n.SetHandler id h ≠ n ↔ n.pendingHandlers id = true) := by
  refine ⟨?_, ?_, ?_⟩
  · intro hp
    simp only [NetworkManager.SetHandler, hp]
    refine ⟨by simp, by simp, ?_, rfl, rfl⟩
    intro j hj
    simp [Function.update_apply, hj]
  · intro hp
    simp [NetworkManager.SetHandler, hp]
  · constructor
    · intro hne
      by_contra hp
      simp only [Bool.not_eq_true] at hp
      exact hne (by simp [NetworkManager.SetHandler, hp])
    · intro hp hex
      have h1 : (n.SetHandler id h).pendingHandlers id = false := by
        simp [NetworkManager.SetHandler, hp]
      rw [hex, hp] at h1
      exact Bool.noConfusion h1

theorem C5_SetHandler_binds_iff_pending_witness :
    ((NewNetworkManager : NetworkManager Nat Nat).Register.1.pendingHandlers 0 = true ∧
      ((NewNetworkManager : NetworkManager Nat Nat).Register.1.SetHandler 0 (some 3)).handlers 0
        = some (some 3)) ∧
    ((NewNetworkManager : NetworkManager Nat Nat).pendingHandlers 0 = false ∧
      (NewNetworkManager : NetworkManager Nat Nat).SetHandler 0 (some 3)
        = (NewNetworkManager : NetworkManager Nat Nat)) :=
  ⟨⟨by decide, ((C5_SetHandler_binds_iff_pending
      (NewNetworkManager : NetworkManager Nat Nat).Register.1 0 (some 3)).1 (by decide)).1⟩,
   ⟨by decide, (C5_SetHandler_binds_iff_pending
      (NewNetworkManager : NetworkManager Nat Nat) 0 (some 3)).2.1 (by decide)⟩⟩

end Registry

section Routing
variable {NodeID ChainID Time Version Impl Err : Type}

/-! ## Routing by the trailing tag byte -/

theorem routeIncomingMessage_tagged (n : NetworkManager NodeID Impl) (P : List uint8)
    (t : uint8) :
    n.routeIncomingMessage (P ++ [t]) =
      match n.handlers t with
      | some handler => (P, handler, true)
      | none => (P, none, false) := by
  unfold NetworkManager.routeIncomingMessage
  simp

theorem routeIncomingMessage_bound (n : NetworkManager NodeID Impl) (P : List uint8)
    (t : uint8) (handler : NetworkHandler Impl) (hb : n.handlers t = some handler) :
    n.routeIncomingMessage (P ++ [t]) = (P, handler, true) := by
  rw [routeIncomingMessage_tagged, hb]

/-! ## C6 -/

/-- C6: for every payload `P` and every handler id `h` bound to implementation
`impl` on the receiving manager, `h`'s sender's `SendAppGossip` hands the
transport exactly one message, `P ++ [h]`, and `AppGossip` on those bytes ends
in the single callback `impl.AppGossip nodeID P` (tag removed), the manager
state unchanged; no other callback is invoked. -/
theorem C6_gossip_round_trip (n : NetworkManager NodeID Impl) (h : uint8) (impl : Impl)
    (P : List uint8) (nodeID : NodeID) (sender : Send NodeID ChainID → Option Err)
    (hb : n.handlers h = some (some impl)) :
    (WrappedAppSender.SendAppGossip ⟨h⟩ sender P).1 = [Send.SendAppGossip (P ++ [h])] ∧
    ∀ wire, Send.SendAppGossip wire ∈ (WrappedAppSender.SendAppGossip ⟨h⟩ sender P).1 →
      n.AppGossip nodeID wire =
        (n, (Dispatch.invoke (some impl) (Callback.AppGossip nodeID P) :
          Dispatch NodeID ChainID Time Version Impl)) ∧
      (Dispatch.invoke (some impl) (Callback.AppGossip nodeID P) :
          Dispatch NodeID ChainID Time Version Impl).calls
        = [(impl, Callback.AppGossip nodeID P)] := by
  refine ⟨rfl, ?_⟩
  intro wire hw
  simp only [WrappedAppSender.SendAppGossip, List.mem_singleton, Send.SendAppGossip.injEq] at hw
  subst hw
  refine ⟨?_, rfl⟩
  simp only [NetworkManager.AppGossip, routeIncomingMessage_bound n P h (some impl) hb]

theorem C6_gossip_round_trip_witness :
    ((NewNetworkManager : NetworkManager Nat Nat).Register.1.SetHandler 0 (some 11)).handlers 0
      = some (some 11) ∧
    ((NewNetworkManager : NetworkManager Nat Nat).Register.1.SetHandler 0 (some 11)).AppGossip 5
        [1, 2, 0] =
      ((NewNetworkManager : NetworkManager Nat Nat).Register.1.SetHandler 0 (some 11),
        (Dispatch.invoke (some 11) (Callback.AppGossip 5 [1, 2]) :
          Dispatch Nat Nat Nat Nat Nat)) :=
  ⟨by decide,
    ((@C6_gossip_round_trip Nat Nat Nat Nat Nat Nat
      ((NewNetworkManager : NetworkManager Nat Nat).Register.1.SetHandler 0 (some 11))
      0 11 [1, 2] 5 (fun _ => none) (by decide)).2 [1, 2, 0] (by decide)).1⟩

/-! ## C10 -/

/-- C10: in every manager state, `routeIncomingMessage` on a zero-length
message returns `ok = false` (the early return precedes the index), and
`AppGossip`, `AppRequest` and `CrossChainAppRequest` on an empty payload take
the dropped branch: no handler callback is invoked and nil is returned. -/
theorem C10_empty_payload_selects_no_handler (n : NetworkManager NodeID Impl) (p : NodeID)
    (c : ChainID) (id : uint32) (deadline : Time)
    (run : Impl → Callback NodeID ChainID Time Version → Option Err) :
    n.routeIncomingMessage [] = ([], none, false) ∧
    n.AppGossip p [] = (n, (Dispatch.dropped : Dispatch NodeID ChainID Time Version Impl)) ∧
    n.AppRequest p id deadline [] =
      (n, (Dispatch.dropped : Dispatch NodeID ChainID Time Version Impl)) ∧
    n.CrossChainAppRequest c id deadline [] =
      (n, (Dispatch.dropped : Dispatch NodeID ChainID Time Version Impl)) ∧
    (Dispatch.dropped : Dispatch NodeID ChainID Time Version Impl).calls = [] ∧
    (Dispatch.dropped : Dispatch NodeID ChainID Time Version Impl).returns run
      = GoResult.returned none :=
  ⟨rfl, rfl, rfl, rfl, rfl, rfl⟩

end Routing

section Outbound
variable {NodeID ChainID Time Version Impl Err : Type} [DecidableEq NodeID]

/-! ## The sends of `SendAppRequest` -/

theorem sendAppRequestLoop_sends (w : WrappedAppSender)
    (sender : Send NodeID ChainID → Option Err) (r : uint32) (bytes : List uint8)
    (n : NetworkManager NodeID Impl) (nodeIDs : List NodeID) :
    ∀ s ∈ (w.sendAppRequestLoop sender r bytes n nodeIDs).2.1,
      ∃ p v, p ∈ nodeIDs ∧ s = Send.SendAppRequest [p] v bytes := by
  induction nodeIDs generalizing n with
  | nil => intro s hs; simp [WrappedAppSender.sendAppRequestLoop] at hs
  | cons q rest ih =>
    intro s hs
    simp only [WrappedAppSender.sendAppRequestLoop] at hs
    cases hsend : sender (Send.SendAppRequest [q] (n.getSharedRequestID w.handler q r).2 bytes)
      with
    | some e =>
      simp only [hsend, List.mem_singleton] at hs
      exact ⟨q, _, List.mem_cons_self _ _, hs⟩
    | none =>
      simp only [hsend, List.mem_cons] at hs
      rcases hs with hs | hs
      · exact ⟨q, _, List.mem_cons_self _ _, hs⟩
      · obtain ⟨p, v, hp, e⟩ := ih _ s hs
        exact ⟨p, v, List.mem_cons_of_mem _ hp, e⟩

theorem sendAppRequestLoop_sends_ne_nil (w : WrappedAppSender)
    (sender : Send NodeID ChainID → Option Err) (r : uint32) (bytes : List uint8)
    (n : NetworkManager NodeID Impl) (nodeIDs : List NodeID) (hne : nodeIDs ≠ []) :
    (w.sendAppRequestLoop sender r bytes n nodeIDs).2.1 ≠ [] := by
  cases nodeIDs with
  | nil => exact absurd rfl hne
  | cons q rest =>
    simp only [WrappedAppSender.sendAppRequestLoop]
    cases sender _ <;> simp

/-! ## C7 -/

/-- C7: for every handler id `h = w.handler` and payload `P`, the bytes passed
to the transport by `SendAppGossip`, `SendAppGossipSpecific`, every send of
`SendAppRequest` (at least one when there is a destination) and
`SendCrossChainAppRequest` are exactly `P ++ [h]`: length `len(P) + 1`, last
byte `h`, and `P` again once the last byte is dropped. -/
theorem C7_wire_framing (w : WrappedAppSender) (P : List uint8)
    (sender : Send NodeID ChainID → Option Err) (n : NetworkManager NodeID Impl)
    (nodeIDs : List NodeID) (r : uint32) (chainID : ChainID) :
    (w.SendAppGossip sender P).1 = [Send.SendAppGossip (P ++ [w.handler])] ∧
    (w.SendAppGossipSpecific sender nodeIDs P).1 =
      [Send.SendAppGossipSpecific nodeIDs (P ++ [w.handler])] ∧
    (∀ s ∈ (w.SendAppRequest sender n nodeIDs r P).2.1,
      ∃ p v, p ∈ nodeIDs ∧ s = Send.SendAppRequest [p] v (P ++ [w.handler])) ∧
    (nodeIDs ≠ [] → (w.SendAppRequest sender n nodeIDs r P).2.1 ≠ []) ∧
    (w.SendCrossChainAppRequest sender n chainID r P).2.1 =
      [Send.SendCrossChainAppRequest chainID r (P ++ [w.handler])] ∧
    (P ++ [w.handler]).length = P.length + 1 ∧
    (P ++ [w.handler]).getLast? = some w.handler ∧
    (P ++ [w.handler]).dropLast = P := by
  refine ⟨rfl, rfl, ?_, ?_, rfl, by simp, by simp, by simp⟩
  · exact sendAppRequestLoop_sends w sender r _ n nodeIDs
  · exact sendAppRequestLoop_sends_ne_nil w sender r _ n nodeIDs

theorem C7_wire_framing_witness :
    ([5] : List Nat) ≠ [] ∧
    (WrappedAppSender.SendAppRequest ⟨3⟩ (fun _ => (none : Option Nat))
      (NewNetworkManager : NetworkManager Nat Nat) [5] 7
      [1, 2, 3, 4, 5, 6, 7, 8, 9, 10] :
        NetworkManager Nat Nat × List (Send Nat Nat) × Option Nat).2.1 ≠ [] ∧
    (WrappedAppSender.SendAppGossip ⟨3⟩ (fun _ => (none : Option Nat))
        [1, 2, 3, 4, 5, 6, 7, 8, 9, 10] : List (Send Nat Nat) × Option Nat).1 =
      [Send.SendAppGossip [1, 2, 3, 4, 5, 6, 7, 8, 9, 10, 3]] ∧
    ([1, 2, 3, 4, 5, 6, 7, 8, 9, 10] ++ [(3 : uint8)]).length = 11 ∧
    ([1, 2, 3, 4, 5, 6, 7, 8, 9, 10] ++ [(3 : uint8)]).getLast? = some 3 :=
  ⟨by decide,
    (@C7_wire_framing Nat Nat Nat Nat _ ⟨3⟩ [1, 2, 3, 4, 5, 6, 7, 8, 9, 10] (fun _ => none)
      NewNetworkManager [5] 7 0).2.2.2.1 (by decide),
    (@C7_wire_framing Nat Nat Nat Nat _ ⟨3⟩ [1, 2, 3, 4, 5, 6, 7, 8, 9, 10] (fun _ => none)
      (NewNetworkManager : NetworkManager Nat Nat) [5] 7 0).1,
    (@C7_wire_framing Nat Nat Nat Nat _ ⟨3⟩ [1, 2, 3, 4, 5, 6, 7, 8, 9, 10] (fun _ => none)
      (NewNetworkManager : NetworkManager Nat Nat) [5] 7 0).2.2.2.2.2.1,
    (@C7_wire_framing Nat Nat Nat Nat _ ⟨3⟩ [1, 2, 3, 4, 5, 6, 7, 8, 9, 10] (fun _ => none)
      (NewNetworkManager : NetworkManager Nat Nat) [5] 7 0).2.2.2.2.2.2.1⟩

/-! ## C8 -/

/-- C8 fails on the code: on a fresh manager with handler 0 registered and
bound, `SendCrossChainAppRequest` to chain 4 with real id 7 sends the real id 7
itself with payload `[1, 2, 0]` and records nothing under the sentinel
identity (here 0), so the following `CrossChainAppResponse` and
`CrossChainAppRequestFailed` for id 7 are dropped and the handler is never
invoked. -/
theorem C8_cross_chain_request_not_virtualized :
    (NewNetworkManager : NetworkManager Nat Nat).Register.2.1 = 0 ∧
    ((NewNetworkManager : NetworkManager Nat Nat).Register.1.SetHandler 0 (some 11)).handlers 0
      = some (some 11) ∧
    (WrappedAppSender.SendCrossChainAppRequest ⟨0⟩ (fun _ => (none : Option Nat))
      ((NewNetworkManager : NetworkManager Nat Nat).Register.1.SetHandler 0 (some 11))
      (4 : Nat) 7 [1, 2]).2.1 = [Send.SendCrossChainAppRequest 4 7 [1, 2, 0]] ∧
    (WrappedAppSender.SendCrossChainAppRequest ⟨0⟩ (fun _ => (none : Option Nat))
      ((NewNetworkManager : NetworkManager Nat Nat).Register.1.SetHandler 0 (some 11))
      (4 : Nat) 7 [1, 2] : NetworkManager Nat Nat × List (Send Nat Nat) × Option Nat).1.requesters
        0 = none ∧
    ((WrappedAppSender.SendCrossChainAppRequest ⟨0⟩ (fun _ => (none : Option Nat))
      ((NewNetworkManager : NetworkManager Nat Nat).Register.1.SetHandler 0 (some 11))
      (4 : Nat) 7 [1, 2] :
        NetworkManager Nat Nat × List (Send Nat Nat) × Option Nat).1.CrossChainAppResponse
          0 (4 : Nat) 7 [9]).2 = (Dispatch.dropped : Dispatch Nat Nat Nat Nat Nat) ∧
    ((WrappedAppSender.SendCrossChainAppRequest ⟨0⟩ (fun _ => (none : Option Nat))
      ((NewNetworkManager : NetworkManager Nat Nat).Register.1.SetHandler 0 (some 11))
      (4 : Nat) 7 [1, 2] :
        NetworkManager Nat Nat × List (Send Nat Nat) × Option Nat).1.CrossChainAppRequestFailed
          0 (4 : Nat) 7).2 = (Dispatch.dropped : Dispatch Nat Nat Nat Nat Nat) := by
  refine ⟨by decide, by decide, by decide, ?_, by decide, by decide⟩
  rfl
end Outbound

section Inbound
variable {NodeID ChainID Time Version Impl Err : Type} [DecidableEq NodeID]

/-! ## C9 -/

/-- C9 (amended): for every inbound dispatch entry point (`AppGossip`,
`AppRequest`, `CrossChainAppRequest`, `AppResponse`, `AppRequestFailed`,
`CrossChainAppResponse`, `CrossChainAppRequestFailed`), when the message is
routed to a bound handler the manager's method returns exactly what that
handler's callback returns: an error of the callback is passed on to the
transport unchanged, and nil is returned when the callback returns nil. -/
theorem C9_dispatch_returns_callback_result (EmptyNodeID : NodeID)
    (n : NetworkManager NodeID Impl)
    (run : Impl → Callback NodeID ChainID Time Version → Option Err) (p : NodeID) (c : ChainID)
    (id : uint32) (deadline : Time) (P b : List uint8) (h : uint8) (impl : Impl) (v r : uint32)
    (obj : nodeIDRequester) (hb : n.handlers h = some (some impl)) :
    (n.AppGossip p (P ++ [h])).2.returns run
      = GoResult.returned (run impl (Callback.AppGossip p P)) ∧
    (n.AppRequest p id deadline (P ++ [h])).2.returns run
      = GoResult.returned (run impl (Callback.AppRequest p id deadline P)) ∧
    (n.CrossChainAppRequest c id deadline (P ++ [h])).2.returns run
      = GoResult.returned (run impl (Callback.CrossChainAppRequest c id deadline P)) ∧
    (n.requesters p = some obj → obj.requestMapper v = some ⟨h, r⟩ →
      (n.AppResponse p v b).2.returns run
        = GoResult.returned (run impl (Callback.AppResponse p r b)) ∧
      (n.AppRequestFailed p v).2.returns run
        = GoResult.returned (run impl (Callback.AppRequestFailed p r))) ∧
    (n.requesters EmptyNodeID = some obj → obj.requestMapper v = some ⟨h, r⟩ →
      (n.CrossChainAppResponse EmptyNodeID c v b).2.returns run
        = GoResult.returned (run impl (Callback.CrossChainAppResponse c r b)) ∧
      (n.CrossChainAppRequestFailed EmptyNodeID c v).2.returns run
        = GoResult.returned (run impl (Callback.CrossChainAppRequestFailed c r))) := by
  have hroute := routeIncomingMessage_bound n P h (some impl) hb
  refine ⟨?_, ?_, ?_, ?_, ?_⟩
  · simp only [NetworkManager.AppGossip, hroute, Dispatch.returns]
  · simp only [NetworkManager.AppRequest, hroute, Dispatch.returns]
  · simp only [NetworkManager.CrossChainAppRequest, hroute, Dispatch.returns]
  · intro hr hm
    have hh := handleSharedRequestID_mapping n p v obj ⟨h, r⟩ hr hm
    constructor
    · simp only [NetworkManager.AppResponse, hh, hb, Dispatch.returns]
    · simp only [NetworkManager.AppRequestFailed, hh, hb, Dispatch.returns]
  · intro hr hm
    have hh := handleSharedRequestID_mapping n EmptyNodeID v obj ⟨h, r⟩ hr hm
    constructor
    · simp only [NetworkManager.CrossChainAppResponse, hh, hb, Dispatch.returns]
    · simp only [NetworkManager.CrossChainAppRequestFailed, hh, hb, Dispatch.returns]

theorem C9_dispatch_returns_callback_result_witness :
    (exampleManager.handlers 0 = some (some 11) ∧
      exampleManager.requesters 5 = some exampleRequester ∧
      exampleRequester.requestMapper 0 = some ⟨0, 7⟩) ∧
    (exampleManager.AppGossip 5 [9, 0] :
      NetworkManager Nat Nat × Dispatch Nat Nat Nat Nat Nat).2.returns
        (fun _ _ => some 1) = GoResult.returned (some 1) ∧
    (exampleManager.AppResponse 5 0 [9] :
      NetworkManager Nat Nat × Dispatch Nat Nat Nat Nat Nat).2.returns
        (fun _ _ => some 1) = GoResult.returned (some 1) :=
  ⟨⟨rfl, rfl, rfl⟩,
    (@C9_dispatch_returns_callback_result Nat Nat Nat Nat Nat Nat _ 0 exampleManager
      (fun _ _ => some 1) 5 4 7 0 [9] [9] 0 11 0 7 exampleRequester rfl).1,
    ((@C9_dispatch_returns_callback_result Nat Nat Nat Nat Nat Nat _ 0 exampleManager
      (fun _ _ => some 1) 5 4 7 0 [9] [9] 0 11 0 7 exampleRequester rfl).2.2.2.1 rfl rfl).1⟩

/-- The claim C9 as stated fails: with handler 0 bound, the gossip message
`[9, 0]` is routed to that handler, and when its callback returns an error the
manager's `AppGossip` returns that error, not nil. -/
theorem C9_handler_error_escalated_counterexample :
    (((NewNetworkManager : NetworkManager Nat Nat).Register.1.SetHandler 0 (some 11)).AppGossip 5
      [9, 0]).2 = (Dispatch.invoke (some 11) (Callback.AppGossip 5 [9]) :
        Dispatch Nat Nat Nat Nat Nat) ∧
    (((NewNetworkManager : NetworkManager Nat Nat).Register.1.SetHandler 0 (some 11)).AppGossip 5
      [9, 0] : NetworkManager Nat Nat × Dispatch Nat Nat Nat Nat Nat).2.returns
        (fun _ _ => some 1) ≠ GoResult.returned (none : Option Nat) := by
  constructor <;> decide
end Inbound

section RoutingMore
variable {NodeID ChainID Time Version Impl Err : Type}

theorem routeIncomingMessage_last (n : NetworkManager NodeID Impl) (m : List uint8)
    (t : uint8) (hlast : m.getLast? = some t) :
    n.routeIncomingMessage m =
      match n.handlers t with
      | some handler => (m.dropLast, handler, true)
      | none => (m.dropLast, none, false) := by
  have h := routeIncomingMessage_tagged n m.dropLast t
  rw [List.dropLast_append_getLast? t (by simp [hlast])] at h
  exact h

/-! ## C11 -/

/-- C11: in every manager state, for every non-empty payload `m` whose last byte
`t` is not a key of the handler table, `AppGossip`, `AppRequest` and
`CrossChainAppRequest` take the dropped branch: no handler callback is
invoked, nil is returned and the manager state is unchanged. -/
theorem C11_unbound_tag_dropped (n : NetworkManager NodeID Impl) (m : List uint8)
    (t : uint8) (p : NodeID) (c : ChainID) (id : uint32) (deadline : Time)
    (run : Impl → Callback NodeID ChainID Time Version → Option Err)
    (hlast : m.getLast? = some t) (hu : n.handlers t = none) :
    n.AppGossip p m = (n, (Dispatch.dropped : Dispatch NodeID ChainID Time Version Impl)) ∧
    n.AppRequest p id deadline m =
      (n, (Dispatch.dropped : Dispatch NodeID ChainID Time Version Impl)) ∧
    n.CrossChainAppRequest c id deadline m =
      (n, (Dispatch.dropped : Dispatch NodeID ChainID Time Version Impl)) ∧
    (Dispatch.dropped : Dispatch NodeID ChainID Time Version Impl).calls = [] ∧
    (Dispatch.dropped : Dispatch NodeID ChainID Time Version Impl).returns run
      = GoResult.returned none := by
  have hroute : n.routeIncomingMessage m = (m.dropLast, none, false) := by
    rw [routeIncomingMessage_last n m t hlast, hu]
  refine ⟨?_, ?_, ?_, rfl, rfl⟩
  · simp only [NetworkManager.AppGossip, hroute]
  · simp only [NetworkManager.AppRequest, hroute]
  · simp only [NetworkManager.CrossChainAppRequest, hroute]

theorem C11_unbound_tag_dropped_witness :
    (([9, 0] : List uint8).getLast? = some 0 ∧
      (NewNetworkManager : NetworkManager Nat Nat).Register.1.handlers 0 = none) ∧
    (NewNetworkManager : NetworkManager Nat Nat).Register.1.AppGossip 5 [9, 0] =
      ((NewNetworkManager : NetworkManager Nat Nat).Register.1,
        (Dispatch.dropped : Dispatch Nat Nat Nat Nat Nat)) :=
  ⟨⟨by decide, by decide⟩,
    (@C11_unbound_tag_dropped Nat Nat Nat Nat Nat Nat
      (NewNetworkManager : NetworkManager Nat Nat).Register.1 [9, 0] 0 5 4 7 0
      (fun _ _ => none) (by decide) (by decide)).1⟩

/-! ## C17 -/

/-- C17: for every non-empty request payload `m` whose last byte `h` is bound to
implementation `impl`, `AppRequest p id deadline m` ends in the single callback
`impl.AppRequest` with the same peer, request id and deadline and the payload
`m` without its last byte; `CrossChainAppRequest` does the same with the chain
identity in place of the peer.  The manager state is unchanged. -/
theorem C17_request_dispatch (n : NetworkManager NodeID Impl) (m : List uint8)
    (h : uint8) (impl : Impl) (p : NodeID) (c : ChainID) (id : uint32) (deadline : Time)
    (hlast : m.getLast? = some h) (hb : n.handlers h = some (some impl)) :
    n.AppRequest p id deadline m =
      (n, (Dispatch.invoke (some impl) (Callback.AppRequest p id deadline m.dropLast) :
        Dispatch NodeID ChainID Time Version Impl)) ∧
    (Dispatch.invoke (some impl) (Callback.AppRequest p id deadline m.dropLast) :
        Dispatch NodeID ChainID Time Version Impl).calls
      = [(impl, Callback.AppRequest p id deadline m.dropLast)] ∧
    n.CrossChainAppRequest c id deadline m =
      (n, (Dispatch.invoke (some impl) (Callback.CrossChainAppRequest c id deadline m.dropLast) :
        Dispatch NodeID ChainID Time Version Impl)) ∧
    (Dispatch.invoke (some impl) (Callback.CrossChainAppRequest c id deadline m.dropLast) :
        Dispatch NodeID ChainID Time Version Impl).calls
      = [(impl, Callback.CrossChainAppRequest c id deadline m.dropLast)] := by
  have hroute : n.routeIncomingMessage m = (m.dropLast, some impl, true) := by
    rw [routeIncomingMessage_last n m h hlast, hb]
  refine ⟨?_, rfl, ?_, rfl⟩
  · simp only [NetworkManager.AppRequest, hroute]
  · simp only [NetworkManager.CrossChainAppRequest, hroute]

theorem C17_request_dispatch_witness :
    (([9, 8, 0] : List uint8).getLast? = some 0 ∧
      exampleManager.handlers 0 = some (some 11)) ∧
    exampleManager.AppRequest 5 3 (100 : Nat) [9, 8, 0] =
      (exampleManager,
        (Dispatch.invoke (some 11) (Callback.AppRequest 5 3 100 [9, 8]) :
          Dispatch Nat Nat Nat Nat Nat)) :=
  ⟨⟨by decide, by decide⟩,
    (@C17_request_dispatch Nat Nat Nat Nat Nat exampleManager [9, 8, 0] 0 11 5 4 3 100
      (by decide) (by decide)).1⟩
end RoutingMore

section Isolation
variable {NodeID ChainID Time Version Impl Err : Type} [DecidableEq NodeID]

theorem getSharedRequestID_frame (n : NetworkManager NodeID Impl) (h : uint8) (p q : NodeID)
    (r : uint32) (hpq : p ≠ q) :
    (n.getSharedRequestID h p r).1.requesters q = n.requesters q ∧
    (n.getSharedRequestID h p r).1.handlers = n.handlers ∧
    (n.getSharedRequestID h p r).1.pendingHandlers = n.pendingHandlers ∧
    (n.getSharedRequestID h p r).1.handler = n.handler := by
  refine ⟨?_, rfl, rfl, rfl⟩
  simp [NetworkManager.getSharedRequestID, Function.update_apply, Ne.symm hpq]

theorem handleSharedRequestID_frame (n : NetworkManager NodeID Impl) (p q : NodeID)
    (v : uint32) (hpq : p ≠ q) :
    (n.handleSharedRequestID p v).1.requesters q = n.requesters q ∧
    (n.handleSharedRequestID p v).1.handlers = n.handlers ∧
    (n.handleSharedRequestID p v).1.pendingHandlers = n.pendingHandlers ∧
    (n.handleSharedRequestID p v).1.handler = n.handler := by
  cases hr : n.requesters p with
  | none =>
    rw [handleSharedRequestID_no_record n p v hr]
    exact ⟨rfl, rfl, rfl, rfl⟩
  | some obj =>
    cases hm : obj.requestMapper v with
    | none =>
      rw [handleSharedRequestID_no_mapping n p v obj hr hm]
      exact ⟨rfl, rfl, rfl, rfl⟩
    | some req =>
      rw [handleSharedRequestID_mapping n p v obj req hr hm]
      refine ⟨?_, rfl, rfl, rfl⟩
      simp [Function.update_apply, Ne.symm hpq]

theorem handleSharedRequestID_result_congr (n m : NetworkManager NodeID Impl) (q : NodeID)
    (v : uint32) (hq : m.requesters q = n.requesters q) (hh : m.handlers = n.handlers) :
    (m.handleSharedRequestID q v).2 = (n.handleSharedRequestID q v).2 := by
  cases hr : n.requesters q with
  | none =>
    rw [handleSharedRequestID_no_record n q v hr,
      handleSharedRequestID_no_record m q v (by rw [hq]; exact hr)]
  | some obj =>
    cases hm : obj.requestMapper v with
    | none =>
      rw [handleSharedRequestID_no_mapping n q v obj hr hm,
        handleSharedRequestID_no_mapping m q v obj (by rw [hq]; exact hr) hm]
    | some req =>
      rw [handleSharedRequestID_mapping n q v obj req hr hm,
        handleSharedRequestID_mapping m q v obj req (by rw [hq]; exact hr) hm, hh]

/-! ## C18 -/

/-- C18: for every state and peers `p ≠ q`, `getSharedRequestID h p r` and
`handleSharedRequestID p v` leave `q`'s record (counter and virtual-id
mappings), the handler table and the pending set unchanged.  A mapping
allocated for `p` has no effect on what `handleSharedRequestID q v` returns
(not found when `q` has no record), and is not consumed by it: `p`'s record is
untouched and the mapping still resolves for `p` to the real id `r`. -/
theorem C18_per_peer_isolation (n : NetworkManager NodeID Impl) (h : uint8) (p q : NodeID)
    (r v : uint32) (hpq : p ≠ q) :
    ((n.getSharedRequestID h p r).1.requesters q = n.requesters q ∧
      (n.getSharedRequestID h p r).1.counter q = n.counter q ∧
      (n.getSharedRequestID h p r).1.handlers = n.handlers ∧
      (n.getSharedRequestID h p r).1.pendingHandlers = n.pendingHandlers) ∧
    ((n.handleSharedRequestID p v).1.requesters q = n.requesters q ∧
      (n.handleSharedRequestID p v).1.counter q = n.counter q ∧
      (n.handleSharedRequestID p v).1.handlers = n.handlers ∧
      (n.handleSharedRequestID p v).1.pendingHandlers = n.pendingHandlers) ∧
    (((n.getSharedRequestID h p r).1.handleSharedRequestID q v).2
        = (n.handleSharedRequestID q v).2 ∧
      (n.requesters q = none →
        ((n.getSharedRequestID h p r).1.handleSharedRequestID q
          (n.getSharedRequestID h p r).2).2.2.2 = false) ∧
      ((n.getSharedRequestID h p r).1.handleSharedRequestID q v).1.requesters p
        = (n.getSharedRequestID h p r).1.requesters p ∧
      ((((n.getSharedRequestID h p r).1.handleSharedRequestID q v).1.handleSharedRequestID p
        (n.getSharedRequestID h p r).2).2.2 = (r, true))) := by
  have hg := getSharedRequestID_frame n h p q r hpq
  have hh := handleSharedRequestID_frame n p q v hpq
  have hq := handleSharedRequestID_frame (n.getSharedRequestID h p r).1 q p v (Ne.symm hpq)
  refine ⟨⟨hg.1, ?_, hg.2.1, hg.2.2.1⟩, ⟨hh.1, ?_, hh.2.1, hh.2.2.1⟩, ?_, ?_, hq.1, ?_⟩
  · simp only [NetworkManager.counter, hg.1]
  · simp only [NetworkManager.counter, hh.1]
  · exact handleSharedRequestID_result_congr n _ q v hg.1 hg.2.1
  · intro hnone
    rw [handleSharedRequestID_no_record _ q _ (by rw [hg.1]; exact hnone)]
  · have e := handleSharedRequestID_result_congr (n.getSharedRequestID h p r).1
      ((n.getSharedRequestID h p r).1.handleSharedRequestID q v).1 p
      (n.getSharedRequestID h p r).2 hq.1 hq.2.1
    rw [e]
    simp [NetworkManager.handleSharedRequestID, NetworkManager.getSharedRequestID]

theorem C18_per_peer_isolation_witness :
    (5 : Nat) ≠ 6 ∧
    (NewNetworkManager : NetworkManager Nat Nat).requesters 6 = none ∧
    (((NewNetworkManager : NetworkManager Nat Nat).getSharedRequestID 0 5
        7).1.handleSharedRequestID 6
      ((NewNetworkManager : NetworkManager Nat Nat).getSharedRequestID 0 5 7).2).2.2.2 = false ∧
    (((((NewNetworkManager : NetworkManager Nat Nat).getSharedRequestID 0 5
        7).1.handleSharedRequestID 6 0).1.handleSharedRequestID 5
      ((NewNetworkManager : NetworkManager Nat Nat).getSharedRequestID 0 5 7).2).2.2
        = (7, true)) :=
  ⟨by decide, rfl,
    (C18_per_peer_isolation (NewNetworkManager : NetworkManager Nat Nat) 0 5 6 7 0
      (by decide)).2.2.2.1 rfl,
    (C18_per_peer_isolation (NewNetworkManager : NetworkManager Nat Nat) 0 5 6 7 0
      (by decide)).2.2.2.2.2⟩

/-! ## C19 -/

/-- C19: for every state, peer `p` and virtual id `v` with no outstanding
mapping (no record for `p`, or a record without an entry for `v`),
`handleSharedRequestID p v` reports not found and returns the manager state
unchanged, and `AppResponse` and `AppRequestFailed` take the dropped branch on
the unchanged state; whenever a resolution reports not found, the state is
unchanged. -/
theorem C19_failed_resolution_atomic (n : NetworkManager NodeID Impl) (p : NodeID)
    (v : uint32) (b : List uint8) :
    ((n.requesters p = none ∨ ∃ obj, n.requesters p = some obj ∧ obj.requestMapper v = none) →
      n.handleSharedRequestID p v = (n, none, 0, false) ∧
      n.AppResponse p v b =
        (n, (Dispatch.dropped : Dispatch NodeID ChainID Time Version Impl)) ∧
      n.AppRequestFailed p v =
        (n, (Dispatch.dropped : Dispatch NodeID ChainID Time Version Impl))) ∧
    ((n.handleSharedRequestID p v).2.2.2 = false → (n.handleSharedRequestID p v).1 = n) := by
  constructor
  · intro hno
    have hh : n.handleSharedRequestID p v = (n, none, 0, false) := by
      rcases hno with hr | ⟨obj, hr, hm⟩
      · exact handleSharedRequestID_no_record n p v hr
      · exact handleSharedRequestID_no_mapping n p v obj hr hm
    refine ⟨hh, ?_, ?_⟩
    · simp only [NetworkManager.AppResponse, hh]
    · simp only [NetworkManager.AppRequestFailed, hh]
  · intro hf
    cases hr : n.requesters p with
    | none => rw [handleSharedRequestID_no_record n p v hr]
    | some obj =>
      cases hm : obj.requestMapper v with
      | none => rw [handleSharedRequestID_no_mapping n p v obj hr hm]
      | some req =>
        rw [handleSharedRequestID_mapping n p v obj req hr hm] at hf
        simp at hf

theorem C19_failed_resolution_atomic_witness :
    ((NewNetworkManager : NetworkManager Nat Nat).requesters 5 = none ∨
      ∃ obj, (NewNetworkManager : NetworkManager Nat Nat).requesters 5 = some obj ∧
        obj.requestMapper 0 = none) ∧
    (NewNetworkManager : NetworkManager Nat Nat).handleSharedRequestID 5 0 =
      ((NewNetworkManager : NetworkManager Nat Nat), none, 0, false) ∧
    ((exampleManager.handleSharedRequestID 5 3).2.2.2 = false ∧
      (exampleManager.handleSharedRequestID 5 3).1 = exampleManager) :=
  ⟨Or.inl rfl,
    ((@C19_failed_resolution_atomic Nat Nat Nat Nat Nat _
      (NewNetworkManager : NetworkManager Nat Nat) 5 0 []).1 (Or.inl rfl)).1,
    by decide,
    (@C19_failed_resolution_atomic Nat Nat Nat Nat Nat _ exampleManager 5 3 []).2 (by decide)⟩
end Isolation

section SendLoop
variable {NodeID ChainID Time Version Impl Err : Type} [DecidableEq NodeID]

theorem getSharedRequestID_record (n : NetworkManager NodeID Impl) (h : uint8) (p : NodeID)
    (r : uint32) :
    ∃ obj, (n.getSharedRequestID h p r).1.requesters p = some obj ∧
      obj.requestMapper (n.counter p) = some ⟨h, r⟩ ∧
      obj.requestID = incrUint32 (n.counter p) := by
  unfold NetworkManager.getSharedRequestID NetworkManager.counter
  cases n.requesters p <;> simp

theorem sendAppRequestLoop_ok (w : WrappedAppSender) (sender : Send NodeID ChainID → Option Err)
    (r : uint32) (bytes : List uint8) (n : NetworkManager NodeID Impl) (nodeIDs : List NodeID)
    (hnd : nodeIDs.Nodup)
    (hok : ∀ p ∈ nodeIDs, ∀ v, sender (Send.SendAppRequest [p] v bytes) = none) :
    (w.sendAppRequestLoop sender r bytes n nodeIDs).2.1 =
      nodeIDs.map (fun p => Send.SendAppRequest [p] (n.counter p) bytes) ∧
    (w.sendAppRequestLoop sender r bytes n nodeIDs).2.2 = none ∧
    (∀ p ∈ nodeIDs, ∃ obj,
      (w.sendAppRequestLoop sender r bytes n nodeIDs).1.requesters p = some obj ∧
      obj.requestMapper (n.counter p) = some ⟨w.handler, r⟩ ∧
      obj.requestID = incrUint32 (n.counter p)) ∧
    (∀ p, p ∉ nodeIDs →
      (w.sendAppRequestLoop sender r bytes n nodeIDs).1.requesters p = n.requesters p) ∧
    (w.sendAppRequestLoop sender r bytes n nodeIDs).1.handlers = n.handlers ∧
    (w.sendAppRequestLoop sender r bytes n nodeIDs).1.pendingHandlers = n.pendingHandlers ∧
    (w.sendAppRequestLoop sender r bytes n nodeIDs).1.handler = n.handler := by
  induction nodeIDs generalizing n with
  | nil =>
    refine ⟨rfl, rfl, ?_, fun _ _ => rfl, rfl, rfl, rfl⟩
    intro p hp
    simp at hp
  | cons q rest ih =>
    have hq : q ∉ rest := (List.nodup_cons.mp hnd).1
    have hrest : rest.Nodup := (List.nodup_cons.mp hnd).2
    have hsend := hok q (List.mem_cons_self _ _) (n.getSharedRequestID w.handler q r).2
    obtain ⟨i1, i2, i3, i4, i5, i6, i7⟩ := ih (n.getSharedRequestID w.handler q r).1 hrest
      (fun p hp v => hok p (List.mem_cons_of_mem _ hp) v)
    have hcounter : ∀ p ∈ rest, (n.getSharedRequestID w.handler q r).1.counter p = n.counter p := by
      intro p hp
      exact counter_getSharedRequestID_other n w.handler p q r (fun e => hq (e ▸ hp))
    simp only [WrappedAppSender.sendAppRequestLoop, hsend]
    refine ⟨?_, i2, ?_, ?_, i5, i6, i7⟩
    · rw [i1, List.map_cons, getSharedRequestID_snd]
      congr 1
      apply List.map_congr_left
      intro p hp
      rw [hcounter p hp]
    · intro p hp
      rcases List.mem_cons.mp hp with e | hp
      · subst e
        rw [i4 p hq]
        exact getSharedRequestID_record n w.handler p r
      · obtain ⟨obj, o1, o2, o3⟩ := i3 p hp
        rw [hcounter p hp] at o2 o3
        exact ⟨obj, o1, o2, o3⟩
    · intro p hp
      have hpq : p ≠ q := fun e => hp (e ▸ List.mem_cons_self _ _)
      have hpr : p ∉ rest := fun h => hp (List.mem_cons_of_mem _ h)
      rw [i4 p hpr]
      exact (getSharedRequestID_frame n w.handler q p r (Ne.symm hpq)).1

theorem sendAppRequestLoop_fail (w : WrappedAppSender) (sender : Send NodeID ChainID → Option Err)
    (r : uint32) (bytes : List uint8) (e : Err) (q : NodeID) (post : List NodeID)
    (pre : List NodeID) (n : NetworkManager NodeID Impl)
    (hq : q ∉ pre)
    (hok : ∀ p ∈ pre, ∀ v, sender (Send.SendAppRequest [p] v bytes) = none)
    (hfail : sender (Send.SendAppRequest [q] (n.counter q) bytes) = some e) :
    w.sendAppRequestLoop sender r bytes n (pre ++ q :: post) =
      ((w.sendAppRequestLoop (fun (_ : Send NodeID ChainID) => (none : Option Err)) r bytes n (pre ++ [q])).1,
        (w.sendAppRequestLoop (fun (_ : Send NodeID ChainID) => (none : Option Err)) r bytes n (pre ++ [q])).2.1,
        some e) := by
  induction pre generalizing n with
  | nil =>
    have hsend : sender (Send.SendAppRequest [q] (n.getSharedRequestID w.handler q r).2 bytes)
        = some e := by rw [getSharedRequestID_snd]; exact hfail
    simp only [List.nil_append, WrappedAppSender.sendAppRequestLoop, hsend]
  | cons a pre ih =>
    have haq : q ≠ a := fun h => hq (h ▸ List.mem_cons_self _ _)
    have hsend := hok a (List.mem_cons_self _ _) (n.getSharedRequestID w.handler a r).2
    have hih := ih (n.getSharedRequestID w.handler a r).1
      (fun h => hq (List.mem_cons_of_mem _ h))
      (fun p hp v => hok p (List.mem_cons_of_mem _ hp) v)
      (by rw [counter_getSharedRequestID_other n w.handler q a r haq]; exact hfail)
    simp only [List.cons_append, WrappedAppSender.sendAppRequestLoop, hsend]
    have hih2 : w.sendAppRequestLoop sender r bytes (n.getSharedRequestID w.handler a r).1
        (pre.append (q :: post)) = _ := hih
    have e1 : pre.append [q] = pre ++ [q] := rfl
    rw [hih2, e1]

theorem resolvable_of_record (n : NetworkManager NodeID Impl) (p : NodeID) (v r : uint32)
    (h : uint8) (obj : nodeIDRequester) (hr : n.requesters p = some obj)
    (hm : obj.requestMapper v = some ⟨h, r⟩) :
    (n.handleSharedRequestID p v).2.2 = (r, true) := by
  rw [handleSharedRequestID_mapping n p v obj ⟨h, r⟩ hr hm]

/-! ## C13 -/

/-- C13: for every handler id `h = w.handler`, real request id `r`, payload `P`
and list of distinct destination peers for which every transport send
succeeds, `SendAppRequest` issues exactly one transport send per peer, in
order, the one for peer `p` addressed to the singleton `[p]` and carrying the
payload `P ++ [h]` and `p`'s counter value before the call as virtual id;
afterwards that virtual id is mapped to `(h, r)` in `p`'s record, `p`'s counter
has advanced by one, and the call returns nil. -/
theorem C13_SendAppRequest_sends_succeed (w : WrappedAppSender)
    (sender : Send NodeID ChainID → Option Err) (n : NetworkManager NodeID Impl)
    (nodeIDs : List NodeID) (r : uint32) (P : List uint8) (hnd : nodeIDs.Nodup)
    (hok : ∀ p ∈ nodeIDs, ∀ v, sender (Send.SendAppRequest [p] v (P ++ [w.handler])) = none) :
    (w.SendAppRequest sender n nodeIDs r P).2.1 =
      nodeIDs.map (fun p => Send.SendAppRequest [p] (n.counter p) (P ++ [w.handler])) ∧
    (w.SendAppRequest sender n nodeIDs r P).2.1.length = nodeIDs.length ∧
    (w.SendAppRequest sender n nodeIDs r P).2.2 = none ∧
    (∀ p ∈ nodeIDs, ∃ obj,
      (w.SendAppRequest sender n nodeIDs r P).1.requesters p = some obj ∧
      obj.requestMapper (n.counter p) = some ⟨w.handler, r⟩) ∧
    (∀ p ∈ nodeIDs,
      (w.SendAppRequest sender n nodeIDs r P).1.counter p = incrUint32 (n.counter p)) := by
  obtain ⟨h1, h2, h3, -⟩ := sendAppRequestLoop_ok w sender r (P ++ [w.handler]) n nodeIDs hnd hok
  refine ⟨h1, ?_, h2, ?_, ?_⟩
  · simp only [WrappedAppSender.SendAppRequest, h1, List.length_map]
  · intro p hp
    obtain ⟨obj, o1, o2, -⟩ := h3 p hp
    exact ⟨obj, o1, o2⟩
  · intro p hp
    obtain ⟨obj, o1, -, o3⟩ := h3 p hp
    simp only [WrappedAppSender.SendAppRequest, NetworkManager.counter, o1, o3]

theorem C13_SendAppRequest_sends_succeed_witness :
    (([5, 6] : List Nat).Nodup ∧
      ∀ p ∈ ([5, 6] : List Nat), ∀ v,
        (fun (_ : Send Nat Nat) => (none : Option Nat))
          (Send.SendAppRequest [p] v ([1] ++ [(0 : uint8)])) = none) ∧
    (WrappedAppSender.SendAppRequest ⟨0⟩ (fun (_ : Send Nat Nat) => (none : Option Nat))
        (NewNetworkManager : NetworkManager Nat Nat) [5, 6] 7 [1]).2.1 =
      [Send.SendAppRequest [5] 0 [1, 0], Send.SendAppRequest [6] 0 [1, 0]] :=
  ⟨⟨by decide, fun _ _ _ => rfl⟩,
    (C13_SendAppRequest_sends_succeed ⟨0⟩ (fun (_ : Send Nat Nat) => (none : Option Nat))
      (NewNetworkManager : NetworkManager Nat Nat) [5, 6] 7 [1] (by decide)
      (fun _ _ _ => rfl)).1⟩

/-! ## C14 -/

/-- C14: when `SendAppRequest` iterates over the distinct peers
`pre ++ q :: post`, the sends to `pre` succeed and the send to `q` returns the
error `e`, then the call returns exactly `e`, the sends issued are those to
`pre` and `q` and none is addressed to a peer of `post`, and nothing is rolled
back: the mappings allocated for `pre` and `q` are still recorded and resolve
to the real id `r`.  The records of the peers in `post` are untouched. -/
theorem C14_SendAppRequest_transport_error (w : WrappedAppSender)
    (sender : Send NodeID ChainID → Option Err) (n : NetworkManager NodeID Impl)
    (pre : List NodeID) (q : NodeID) (post : List NodeID) (r : uint32) (P : List uint8)
    (e : Err) (hnd : (pre ++ q :: post).Nodup)
    (hok : ∀ p ∈ pre, ∀ v, sender (Send.SendAppRequest [p] v (P ++ [w.handler])) = none)
    (hfail : sender (Send.SendAppRequest [q] (n.counter q) (P ++ [w.handler])) = some e) :
    (w.SendAppRequest sender n (pre ++ q :: post) r P).2.2 = some e ∧
    (w.SendAppRequest sender n (pre ++ q :: post) r P).2.1 =
      (pre ++ [q]).map (fun p => Send.SendAppRequest [p] (n.counter p) (P ++ [w.handler])) ∧
    (∀ p ∈ post, ∀ s ∈ (w.SendAppRequest sender n (pre ++ q :: post) r P).2.1,
      ∀ v bytes, s ≠ Send.SendAppRequest [p] v bytes) ∧
    (∀ p ∈ pre ++ [q], ∃ obj,
      (w.SendAppRequest sender n (pre ++ q :: post) r P).1.requesters p = some obj ∧
      obj.requestMapper (n.counter p) = some ⟨w.handler, r⟩) ∧
    (∀ p ∈ pre ++ [q],
      ((w.SendAppRequest sender n (pre ++ q :: post) r P).1.handleSharedRequestID p
        (n.counter p)).2.2 = (r, true)) ∧
    (∀ p ∈ post,
      (w.SendAppRequest sender n (pre ++ q :: post) r P).1.requesters p = n.requesters p) := by
  have hsplit : (pre ++ q :: post) = (pre ++ [q]) ++ post := by simp
  have hnd2 : (pre ++ [q]).Nodup := by
    rw [hsplit] at hnd
    exact (List.nodup_append.mp hnd).1
  have hdisj : ∀ p ∈ post, p ∉ pre ++ [q] := by
    rw [hsplit] at hnd
    intro p hp hpq
    exact (List.nodup_append.mp hnd).2.2 hpq hp
  have hq : q ∉ pre := by
    intro hqp
    have := List.nodup_append.mp hnd2
    exact this.2.2 hqp (List.mem_singleton_self q)
  have hloop := sendAppRequestLoop_fail w sender r (P ++ [w.handler]) e q post pre n hq hok hfail
  obtain ⟨h1, -, h3, h4, -⟩ := sendAppRequestLoop_ok w
    (fun (_ : Send NodeID ChainID) => (none : Option Err)) r (P ++ [w.handler]) n (pre ++ [q])
    hnd2 (fun _ _ _ => rfl)
  have hmap : ∀ p ∈ pre ++ [q], ∃ obj,
      (w.SendAppRequest sender n (pre ++ q :: post) r P).1.requesters p = some obj ∧
      obj.requestMapper (n.counter p) = some ⟨w.handler, r⟩ := by
    intro p hp
    obtain ⟨obj, o1, o2, -⟩ := h3 p hp
    refine ⟨obj, ?_, o2⟩
    simp only [WrappedAppSender.SendAppRequest, hloop]
    exact o1
  refine ⟨?_, ?_, ?_, hmap, ?_, ?_⟩
  · simp only [WrappedAppSender.SendAppRequest, hloop]
  · simp only [WrappedAppSender.SendAppRequest, hloop]
    exact h1
  · intro p hp s hs v bytes hsv
    simp only [WrappedAppSender.SendAppRequest, hloop, h1, List.mem_map] at hs
    obtain ⟨p2, hp2, e2⟩ := hs
    rw [hsv] at e2
    simp only [Send.SendAppRequest.injEq, List.cons.injEq, and_true] at e2
    exact hdisj p hp (e2.1 ▸ hp2)
  · intro p hp
    obtain ⟨obj, o1, o2⟩ := hmap p hp
    exact resolvable_of_record _ p _ r w.handler obj o1 o2
  · intro p hp
    simp only [WrappedAppSender.SendAppRequest, hloop]
    exact h4 p (hdisj p hp)

theorem C14_SendAppRequest_transport_error_witness :
    ((([5] : List Nat) ++ 6 :: [8]).Nodup ∧
      (∀ p ∈ ([5] : List Nat), ∀ v,
        (fun (s : Send Nat Nat) => if s = Send.SendAppRequest [6] 0 [1, 0] then some 99 else none)
          (Send.SendAppRequest [p] v ([1] ++ [(0 : uint8)])) = none) ∧
      (fun (s : Send Nat Nat) => if s = Send.SendAppRequest [6] 0 [1, 0] then some 99 else none)
          (Send.SendAppRequest [6] ((NewNetworkManager : NetworkManager Nat Nat).counter 6)
            ([1] ++ [(0 : uint8)])) = some 99) ∧
    (WrappedAppSender.SendAppRequest ⟨0⟩
        (fun (s : Send Nat Nat) => if s = Send.SendAppRequest [6] 0 [1, 0] then some 99 else none)
        (NewNetworkManager : NetworkManager Nat Nat) ([5] ++ 6 :: [8]) 7 [1]).2.2 = some 99 :=
  ⟨⟨by decide, by intro p hp v; simp at hp; subst hp; simp, by decide⟩,
    (C14_SendAppRequest_transport_error ⟨0⟩
      (fun (s : Send Nat Nat) => if s = Send.SendAppRequest [6] 0 [1, 0] then some 99 else none)
      (NewNetworkManager : NetworkManager Nat Nat) [5] 6 [8] 7 [1] 99 (by decide)
      (by intro p hp v; simp at hp; subst hp; simp) (by decide)).1⟩
end SendLoop

section FanOutSection
variable {NodeID ChainID Time Version Impl Err : Type}

/-! ## Lifecycle fan-out -/

theorem fanOut_spec (n : NetworkManager NodeID Impl)
    (run : Impl → Callback NodeID ChainID Time Version → Option Err)
    (cb : Callback NodeID ChainID Time Version) (l : List uint8)
    (hnonnil : ∀ k, n.handlers k ≠ some none) :
    (n.fanOut run cb l).result = GoResult.returned none ∧
    (n.fanOut run cb l).calls.map (fun c => c.1) = l.filter (fun k => (n.handlers k).isSome) ∧
    (∀ c ∈ (n.fanOut run cb l).calls, n.handlers c.1 = some (some c.2.1) ∧ c.2.2 = cb) ∧
    (∀ e ∈ (n.fanOut run cb l).logged,
      ∃ impl, n.handlers e.1 = some (some impl) ∧ run impl cb = some e.2) := by
  induction l with
  | nil => simp [NetworkManager.fanOut]
  | cons k rest ih =>
    obtain ⟨i1, i2, i3, i4⟩ := ih
    cases hk : n.handlers k with
    | none =>
      simp only [NetworkManager.fanOut, hk]
      exact ⟨i1, by simp [hk, i2], i3, i4⟩
    | some handler =>
      cases handler with
      | none => exact absurd hk (hnonnil k)
      | some impl =>
        cases hr : run impl cb with
        | none =>
          simp only [NetworkManager.fanOut, hk, hr]
          refine ⟨i1, ?_, ?_, i4⟩
          · simp [hk, i2]
          · intro c hc
            rcases List.mem_cons.mp hc with e | hc
            · subst e; exact ⟨hk, rfl⟩
            · exact i3 c hc
        | some err =>
          simp only [NetworkManager.fanOut, hk, hr]
          refine ⟨i1, ?_, ?_, ?_⟩
          · simp [hk, i2]
          · intro c hc
            rcases List.mem_cons.mp hc with e | hc
            · subst e; exact ⟨hk, rfl⟩
            · exact i3 c hc
          · intro e he
            rcases List.mem_cons.mp he with e1 | he
            · subst e1; exact ⟨impl, hk, hr⟩
            · exact i4 e he

theorem fanOut_each_once (n : NetworkManager NodeID Impl)
    (run : Impl → Callback NodeID ChainID Time Version → Option Err)
    (cb : Callback NodeID ChainID Time Version) (order : List uint8)
    (hnd : order.Nodup) (hall : ∀ k, n.handlers k ≠ none → k ∈ order)
    (hnonnil : ∀ k, n.handlers k ≠ some none) :
    (n.fanOut run cb order).result = GoResult.returned none ∧
    ((n.fanOut run cb order).calls.map (fun c => c.1)).Nodup ∧
    (∀ c ∈ (n.fanOut run cb order).calls, n.handlers c.1 = some (some c.2.1) ∧ c.2.2 = cb) ∧
    (∀ k impl, n.handlers k = some (some impl) → (k, impl, cb) ∈ (n.fanOut run cb order).calls) := by
  obtain ⟨h1, h2, h3, -⟩ := fanOut_spec n run cb order hnonnil
  refine ⟨h1, ?_, h3, ?_⟩
  · rw [h2]
    exact hnd.filter _
  · intro k impl hk
    have hmem : k ∈ (n.fanOut run cb order).calls.map (fun c => c.1) := by
      rw [h2, List.mem_filter]
      exact ⟨hall k (by rw [hk]; simp), by simp [hk]⟩
    obtain ⟨c, hc, hck⟩ := List.mem_map.mp hmem
    obtain ⟨c1, c2⟩ := h3 c hc
    have hck2 : c.1 = k := hck
    rw [hck2, hk] at c1
    have himpl : c.2.1 = impl := by
      simp only [Option.some.injEq] at c1
      exact c1.symm
    have : c = (k, impl, cb) := by
      rcases c with ⟨a, b, d⟩
      simp only at hck2 himpl c2
      rw [hck2, himpl, c2]
    rw [← this]
    exact hc

/-! ## C12 -/

/-- C12: for every handler table whose entries are implementations, every
iteration order that visits each key of the table once, and every choice of
callback results, `Connected peer version` leaves the state unchanged, returns
nil, and invokes the `Connected` callback of each bound handler exactly once
(no handler id occurs twice among the calls, every call is to a bound handler
with that peer and version, and every bound handler is called); the same holds
for `Disconnected peer`. -/
theorem C12_fan_out_best_effort (n : NetworkManager NodeID Impl) (order : List uint8)
    (run : Impl → Callback NodeID ChainID Time Version → Option Err) (p : NodeID) (v : Version)
    (hnd : order.Nodup) (hall : ∀ k, n.handlers k ≠ none → k ∈ order)
    (hnonnil : ∀ k, n.handlers k ≠ some none) :
    ((n.Connected order run p v).1 = n ∧
      (n.Connected order run p v).2.result = GoResult.returned none ∧
      ((n.Connected order run p v).2.calls.map (fun c => c.1)).Nodup ∧
      (∀ c ∈ (n.Connected order run p v).2.calls,
        n.handlers c.1 = some (some c.2.1) ∧ c.2.2 = Callback.Connected p v) ∧
      (∀ k impl, n.handlers k = some (some impl) →
        (k, impl, Callback.Connected p v) ∈ (n.Connected order run p v).2.calls)) ∧
    ((n.Disconnected order run p).1 = n ∧
      (n.Disconnected order run p).2.result = GoResult.returned none ∧
      ((n.Disconnected order run p).2.calls.map (fun c => c.1)).Nodup ∧
      (∀ c ∈ (n.Disconnected order run p).2.calls,
        n.handlers c.1 = some (some c.2.1) ∧ c.2.2 = Callback.Disconnected p) ∧
      (∀ k impl, n.handlers k = some (some impl) →
        (k, impl, Callback.Disconnected p) ∈ (n.Disconnected order run p).2.calls)) :=
  ⟨⟨rfl, fanOut_each_once n run (Callback.Connected p v) order hnd hall hnonnil⟩,
    ⟨rfl, fanOut_each_once n run (Callback.Disconnected p) order hnd hall hnonnil⟩⟩

set_option maxRecDepth 8000 in
theorem C12_fan_out_best_effort_witness :
    (([0, 1, 2] : List uint8).Nodup ∧
      (∀ k, exampleThree.handlers k ≠ none → k ∈ ([0, 1, 2] : List uint8)) ∧
      (∀ k, exampleThree.handlers k ≠ some none)) ∧
    (exampleThree.Connected [0, 1, 2] (fun i _ => if i = 11 then some 1 else none) 5 (3 : Nat) :
      NetworkManager Nat Nat × FanOut Nat Nat Nat Nat Nat Nat).2.result
        = GoResult.returned none ∧
    ((0 : uint8), 10, (Callback.Connected 5 3 : Callback Nat Nat Nat Nat)) ∈
      (exampleThree.Connected [0, 1, 2] (fun i _ => if i = 11 then some 1 else none) 5 (3 : Nat) :
        NetworkManager Nat Nat × FanOut Nat Nat Nat Nat Nat Nat).2.calls ∧
    ((2 : uint8), 12, (Callback.Connected 5 3 : Callback Nat Nat Nat Nat)) ∈
      (exampleThree.Connected [0, 1, 2] (fun i _ => if i = 11 then some 1 else none) 5 (3 : Nat) :
        NetworkManager Nat Nat × FanOut Nat Nat Nat Nat Nat Nat).2.calls :=
  ⟨⟨by decide, by decide, by decide⟩,
    (@C12_fan_out_best_effort Nat Nat Nat Nat Nat Nat exampleThree [0, 1, 2]
      (fun i _ => if i = 11 then some 1 else none) 5 3 (by decide) (by decide)
      (by decide)).1.2.1,
    (@C12_fan_out_best_effort Nat Nat Nat Nat Nat Nat exampleThree [0, 1, 2]
      (fun i _ => if i = 11 then some 1 else none) 5 3 (by decide) (by decide)
      (by decide)).1.2.2.2.2 0 10 (by decide),
    (@C12_fan_out_best_effort Nat Nat Nat Nat Nat Nat exampleThree [0, 1, 2]
      (fun i _ => if i = 11 then some 1 else none) 5 3 (by decide) (by decide)
      (by decide)).1.2.2.2.2 2 12 (by decide)⟩
end FanOutSection

section Unbound

/-! ## C15 -/

/-- C15 fails on the code: on a fresh manager, handler 0 is registered but not
yet bound when its sender's `SendAppRequest` sends real id 7 to peer 5 under
virtual id 0.  `handleSharedRequestID 5 0` then reports found with the nil
handler, so `AppResponse` and `AppRequestFailed` call a method on the nil
interface and panic. -/
theorem C15_response_for_unbound_handler_panics :
    (NewNetworkManager : NetworkManager Nat Nat).Register.2.1 = 0 ∧
    (WrappedAppSender.SendAppRequest (NewNetworkManager : NetworkManager Nat Nat).Register.2.2
      (fun (_ : Send Nat Nat) => (none : Option Nat))
      (NewNetworkManager : NetworkManager Nat Nat).Register.1 [5] 7 [1]).2.1
        = [Send.SendAppRequest [5] 0 [1, 0]] ∧
    exampleUnbound.handlers 0 = none ∧
    exampleUnbound.pendingHandlers 0 = true ∧
    (exampleUnbound.handleSharedRequestID 5 0).2 = (none, 7, true) ∧
    (exampleUnbound.AppResponse 5 0 [9]).2 =
      (Dispatch.invoke none (Callback.AppResponse 5 7 [9]) : Dispatch Nat Nat Nat Nat Nat) ∧
    (exampleUnbound.AppResponse 5 0 [9] :
      NetworkManager Nat Nat × Dispatch Nat Nat Nat Nat Nat).2.returns
        (fun _ _ => (none : Option Nat)) = GoResult.panicked ∧
    (exampleUnbound.AppRequestFailed 5 0 :
      NetworkManager Nat Nat × Dispatch Nat Nat Nat Nat Nat).2.returns
        (fun _ _ => (none : Option Nat)) = GoResult.panicked := by
  refine ⟨by decide, by decide, by decide, by decide, by decide, by decide, by decide,
    by decide⟩

end Unbound

section ActivationRegistry
variable {NodeID Impl : Type}

/-! ## The registry invariant -/

theorem registryInv_new : (NewNetworkManager : NetworkManager NodeID Impl).registryInv 0 := by
  refine ⟨by omega, rfl, ?_, ?_, ?_⟩
  · intro k hk; simp [NewNetworkManager] at hk
  · intro k hk; simp [NewNetworkManager] at hk
  · intro k _; rfl

theorem registryInv_Register (n : NetworkManager NodeID Impl) (m : Nat)
    (hinv : n.registryInv m) (hm : m < 256) : n.Register.1.registryInv (m + 1) := by
  obtain ⟨-, h2, h3, h4, h5⟩ := hinv
  have hval : n.handler.val = m := by rw [h2]; exact Nat.mod_eq_of_lt hm
  refine ⟨by omega, ?_, ?_, ?_, ?_⟩
  · simp only [NetworkManager.Register, incrUint8, hval]
  · intro k hk
    simp only [NetworkManager.Register, Function.update_apply] at hk
    by_cases hkn : k = n.handler
    · rw [hkn, hval]; omega
    · simp only [hkn, if_false] at hk
      have := h3 k hk
      omega
  · intro k hk
    have := h4 k hk
    omega
  · intro k hk
    simp only [NetworkManager.Register, Function.update_apply] at hk
    by_cases hkn : k = n.handler
    · by_contra hne
      have := h4 k hne
      rw [hkn, hval] at this
      omega
    · simp only [hkn, if_false] at hk
      exact h5 k hk

theorem registryInv_SetHandler (n : NetworkManager NodeID Impl) (m : Nat) (id : uint8)
    (h : NetworkHandler Impl) (hinv : n.registryInv m) : (n.SetHandler id h).registryInv m := by
  obtain ⟨h1, h2, h3, h4, h5⟩ := hinv
  unfold NetworkManager.SetHandler
  by_cases hp : n.pendingHandlers id = false
  · rw [if_pos hp]
    exact ⟨h1, h2, h3, h4, h5⟩
  · rw [if_neg hp]
    have hpt : n.pendingHandlers id = true := by simpa using hp
    refine ⟨h1, h2, ?_, ?_, ?_⟩
    · intro k hk
      by_cases hki : k = id
      · rw [hki] at hk
        simp only [Function.update_same] at hk
        exact Bool.noConfusion hk
      · simp only [Function.update_apply, hki, if_false] at hk
        exact h3 k hk
    · intro k hk
      by_cases hki : k = id
      · rw [hki]; exact h3 id hpt
      · simp only [Function.update_apply, hki, if_false] at hk
        exact h4 k hk
    · intro k hk
      by_cases hki : k = id
      · rw [hki] at hk
        simp only [Function.update_same] at hk
        exact Bool.noConfusion hk
      · simp only [Function.update_apply, hki, if_false] at hk ⊢
        exact h5 k hk

theorem registryInv_congr (n n1 : NetworkManager NodeID Impl) (m : Nat)
    (e : n1.handlers = n.handlers ∧ n1.pendingHandlers = n.pendingHandlers ∧
      n1.handler = n.handler) (hinv : n.registryInv m) : n1.registryInv m := by
  obtain ⟨e1, e2, e3⟩ := e
  unfold NetworkManager.registryInv at hinv ⊢
  rw [e1, e2, e3]
  exact hinv

theorem registerCount_cons (op : Op NodeID Impl) (ops : List (Op NodeID Impl)) :
    registerCount (op :: ops) = registerCount [op] + registerCount ops := by
  cases op <;> simp [registerCount]
  omega

theorem registerCount_append (a b : List (Op NodeID Impl)) :
    registerCount (a ++ b) = registerCount a + registerCount b := by
  induction a with
  | nil => simp [registerCount]
  | cons op rest ih =>
    rw [List.cons_append, registerCount_cons, registerCount_cons op rest, ih]
    omega

end ActivationRegistry

section Activation
variable {NodeID Impl : Type} [DecidableEq NodeID]

theorem registry_getSharedRequestID (n : NetworkManager NodeID Impl) (h : uint8) (p : NodeID)
    (r : uint32) :
    (n.getSharedRequestID h p r).1.handlers = n.handlers ∧
    (n.getSharedRequestID h p r).1.pendingHandlers = n.pendingHandlers ∧
    (n.getSharedRequestID h p r).1.handler = n.handler := ⟨rfl, rfl, rfl⟩

theorem registry_handleSharedRequestID (n : NetworkManager NodeID Impl) (p : NodeID)
    (v : uint32) :
    (n.handleSharedRequestID p v).1.handlers = n.handlers ∧
    (n.handleSharedRequestID p v).1.pendingHandlers = n.pendingHandlers ∧
    (n.handleSharedRequestID p v).1.handler = n.handler := by
  cases hr : n.requesters p with
  | none => rw [handleSharedRequestID_no_record n p v hr]; exact ⟨rfl, rfl, rfl⟩
  | some obj =>
    cases hm : obj.requestMapper v with
    | none => rw [handleSharedRequestID_no_mapping n p v obj hr hm]; exact ⟨rfl, rfl, rfl⟩
    | some req => rw [handleSharedRequestID_mapping n p v obj req hr hm]; exact ⟨rfl, rfl, rfl⟩

theorem registryInv_apply (n : NetworkManager NodeID Impl) (m : Nat) (op : Op NodeID Impl)
    (hinv : n.registryInv m) (hm : m + registerCount [op] ≤ 256) :
    (op.apply n).registryInv (m + registerCount [op]) ∧
    ∀ i h, n.handlers i = some h → (op.apply n).handlers i = some h := by
  cases op with
  | Register =>
    refine ⟨registryInv_Register n m hinv (by simp [registerCount] at hm; omega), ?_⟩
    intro i h hi
    exact hi
  | SetHandler id hd =>
    refine ⟨registryInv_SetHandler n m id hd hinv, ?_⟩
    intro i h hi
    simp only [Op.apply, NetworkManager.SetHandler]
    by_cases hp : n.pendingHandlers id = false
    · rw [if_pos hp]; exact hi
    · rw [if_neg hp]
      have hpt : n.pendingHandlers id = true := by simpa using hp
      have hne : i ≠ id := by
        intro e
        rw [e, hinv.2.2.2.2 id hpt] at hi
        exact Option.noConfusion hi
      simp only [Function.update_apply, hne, if_false]
      exact hi
  | getSharedRequestID hd p r =>
    refine ⟨registryInv_congr n _ m (registry_getSharedRequestID n hd p r) hinv, ?_⟩
    intro i h hi
    exact hi
  | handleSharedRequestID p v =>
    refine ⟨registryInv_congr n _ m (registry_handleSharedRequestID n p v) hinv, ?_⟩
    intro i h hi
    simp only [Op.apply, (registry_handleSharedRequestID n p v).1]
    exact hi

theorem registryInv_applyOps (ops : List (Op NodeID Impl)) (n : NetworkManager NodeID Impl)
    (m : Nat) (hinv : n.registryInv m) (hm : m + registerCount ops ≤ 256) :
    (applyOps n ops).registryInv (m + registerCount ops) ∧
    ∀ i h, n.handlers i = some h → (applyOps n ops).handlers i = some h := by
  induction ops generalizing n m with
  | nil => exact ⟨hinv, fun _ _ hi => hi⟩
  | cons op rest ih =>
    rw [registerCount_cons] at hm ⊢
    obtain ⟨s1, s2⟩ := registryInv_apply n m op hinv (by omega)
    obtain ⟨r1, r2⟩ := ih (op.apply n) (m + registerCount [op]) s1 (by omega)
    simp only [applyOps, List.foldl_cons]
    refine ⟨?_, fun i h hi => r2 i h (s2 i h hi)⟩
    rw [← Nat.add_assoc]
    exact r1

/-! ## C16 -/

/-- C16 (amended): take any run of operations from `NewNetworkManager` with at
most 256 `Register` calls in all.  If `SetHandler i h` is called at a point
where `i` is pending, it binds `handlers[i] = h`, and `handlers[i]` is still
`h` after every later operation of the run (no later `Register` or
`SetHandler` replaces it); and in the final state no id is both in
`pendingHandlers` and in `handlers`. -/
theorem C16_bound_handler_stays (ops1 ops2 : List (Op NodeID Impl)) (i : uint8)
    (h : NetworkHandler Impl) (hbudget : registerCount (ops1 ++ ops2) ≤ 256)
    (hpend : (applyOps (NewNetworkManager : NetworkManager NodeID Impl) ops1).pendingHandlers i
      = true) :
    ((applyOps (NewNetworkManager : NetworkManager NodeID Impl) ops1).SetHandler i h).handlers i
      = some h ∧
    (applyOps ((applyOps (NewNetworkManager : NetworkManager NodeID Impl) ops1).SetHandler i h)
      ops2).handlers i = some h ∧
    (∀ k,
      (applyOps ((applyOps (NewNetworkManager : NetworkManager NodeID Impl) ops1).SetHandler i h)
        ops2).pendingHandlers k = true →
      (applyOps ((applyOps (NewNetworkManager : NetworkManager NodeID Impl) ops1).SetHandler i h)
        ops2).handlers k = none) := by
  rw [registerCount_append] at hbudget
  have inv1 := (registryInv_applyOps ops1 (NewNetworkManager : NetworkManager NodeID Impl) 0
    registryInv_new (by omega)).1
  have inv2 := registryInv_SetHandler _ _ i h inv1
  have hset : ((applyOps (NewNetworkManager : NetworkManager NodeID Impl) ops1).SetHandler i
      h).handlers i = some h := by
    simp [NetworkManager.SetHandler, hpend]
  obtain ⟨inv3, keep⟩ := registryInv_applyOps ops2 _ _ inv2 (by omega)
  exact ⟨hset, keep i h hset, inv3.2.2.2.2⟩

theorem C16_bound_handler_stays_witness :
    (registerCount ([Op.Register] ++ [Op.Register, Op.SetHandler 0 (some 20)] :
        List (Op Nat Nat)) ≤ 256 ∧
      (applyOps (NewNetworkManager : NetworkManager Nat Nat) [Op.Register]).pendingHandlers 0
        = true) ∧
    (applyOps ((applyOps (NewNetworkManager : NetworkManager Nat Nat) [Op.Register]).SetHandler 0
      (some 10)) [Op.Register, Op.SetHandler 0 (some 20)]).handlers 0 = some (some 10) :=
  ⟨⟨by decide, by decide⟩,
    (C16_bound_handler_stays ([Op.Register] : List (Op Nat Nat))
      [Op.Register, Op.SetHandler 0 (some 20)] 0 (some 10) (by decide) (by decide)).2.1⟩

set_option maxRecDepth 20000 in
/-- The claim C16 as stated fails once the `uint8` id counter wraps: handler 0
is registered and bound to implementation 10; after 256 more `Register` calls
id 0 is handed out again, so it is both pending and bound, and
`SetHandler 0` then replaces the implementation by 20. -/
theorem C16_rebind_after_wraparound_counterexample :
    (applyOps (NewNetworkManager : NetworkManager Nat Nat) [Op.Register]).pendingHandlers 0
      = true ∧
    ((applyOps (NewNetworkManager : NetworkManager Nat Nat) [Op.Register]).SetHandler 0
      (some 10)).handlers 0 = some (some 10) ∧
    (applyOps ((applyOps (NewNetworkManager : NetworkManager Nat Nat) [Op.Register]).SetHandler 0
      (some 10)) (List.replicate 256 Op.Register)).pendingHandlers 0 = true ∧
    (applyOps ((applyOps (NewNetworkManager : NetworkManager Nat Nat) [Op.Register]).SetHandler 0
      (some 10)) (List.replicate 256 Op.Register)).handlers 0 = some (some 10) ∧
    (applyOps ((applyOps (NewNetworkManager : NetworkManager Nat Nat) [Op.Register]).SetHandler 0
      (some 10)) (List.replicate 256 Op.Register ++ [Op.SetHandler 0 (some 20)])).handlers 0
        = some (some 20) := by
  refine ⟨by decide, by decide, by decide, by decide, by decide⟩
end Activation


section Survive
variable {NodeID ChainID Time Version Impl Err : Type} [DecidableEq NodeID]

/-! ## Outstanding requests -/

theorem outstanding_getSharedRequestID (n : NetworkManager NodeID Impl) (h : uint8)
    (impl : Impl) (p : NodeID) (r : uint32) (hb : n.handlers h = some (some impl)) :
    (n.getSharedRequestID h p r).1.outstanding p (n.getSharedRequestID h p r).2 h r impl 0 := by
  obtain ⟨obj, o1, o2, o3⟩ := getSharedRequestID_record n h p r
  refine ⟨obj, o1, ?_, ?_, hb⟩
  · rw [getSharedRequestID_snd]; exact o2
  · rw [getSharedRequestID_snd, o3]
    simp only [incrUint32, Nat.add_zero]

theorem outstanding_apply (n : NetworkManager NodeID Impl) (p : NodeID) (v : uint32)
    (h : uint8) (r : uint32) (impl : Impl) (j : Nat) (op : Op NodeID Impl)
    (hout : n.outstanding p v h r impl j) (hres : op.resolves p v = false)
    (hset : op.setsHandler h = false) (hj : j + allocCount p [op] < 4294967296) :
    (op.apply n).outstanding p v h r impl (j + allocCount p [op]) := by
  obtain ⟨obj, o1, o2, o3, o4⟩ := hout
  cases op with
  | Register => exact ⟨obj, o1, o2, by simpa [allocCount, Op.allocatesFor] using o3, o4⟩
  | SetHandler id hd =>
    have hid : h ≠ id := by
      intro e
      simp [Op.setsHandler, e] at hset
    refine ⟨obj, ?_, o2, by simpa [allocCount, Op.allocatesFor] using o3, ?_⟩
    · simp only [Op.apply, NetworkManager.SetHandler]
      split <;> exact o1
    · simp only [Op.apply, NetworkManager.SetHandler]
      split
      · exact o4
      · simp only [Function.update_apply, hid, if_false]
        exact o4
  | getSharedRequestID hd q r2 =>
    by_cases hq : q = p
    · subst hq
      have hc : allocCount q ([Op.getSharedRequestID hd q r2] : List (Op NodeID Impl)) = 1 := by
        simp [allocCount, Op.allocatesFor]
      rw [hc] at hj ⊢
      have hne : v ≠ obj.requestID := by
        intro e
        have e2 := congrArg Fin.val e
        rw [o3] at e2
        have := v.isLt
        omega
      refine ⟨{ requestID := incrUint32 obj.requestID,
                requestMapper := Function.update obj.requestMapper obj.requestID
                  (some ⟨hd, r2⟩) }, ?_, ?_, ?_, o4⟩
      · simp [Op.apply, NetworkManager.getSharedRequestID, o1]
      · simp only [Function.update_apply, hne, if_false]
        exact o2
      · simp only [incrUint32, o3]
        omega
    · have hc : allocCount p ([Op.getSharedRequestID hd q r2] : List (Op NodeID Impl)) = 0 := by
        simp [allocCount, Op.allocatesFor, hq]
      rw [hc]
      refine ⟨obj, ?_, o2, o3, o4⟩
      rw [← o1]
      exact (getSharedRequestID_frame n hd q p r2 hq).1
  | handleSharedRequestID q u =>
    have hc : allocCount p ([Op.handleSharedRequestID q u] : List (Op NodeID Impl)) = 0 := by
      simp [allocCount, Op.allocatesFor]
    rw [hc]
    have hh : (n.handleSharedRequestID q u).1.handlers = n.handlers :=
      (registry_handleSharedRequestID n q u).1
    by_cases hq : q = p
    · subst hq
      have hu : v ≠ u := by
        intro e
        simp [Op.resolves, e] at hres
      cases hm : obj.requestMapper u with
      | none =>
        simp only [Op.apply, handleSharedRequestID_no_mapping n q u obj o1 hm]
        exact ⟨obj, o1, o2, o3, o4⟩
      | some req =>
        simp only [Op.apply, handleSharedRequestID_mapping n q u obj req o1 hm]
        refine ⟨{ obj with requestMapper := Function.update obj.requestMapper u none },
          by simp, ?_, o3, o4⟩
        simp only [Function.update_apply, hu, if_false]
        exact o2
    · refine ⟨obj, ?_, o2, o3, ?_⟩
      · rw [← o1]
        exact (handleSharedRequestID_frame n q p u hq).1
      · simp only [Op.apply, hh]
        exact o4

theorem allocCount_cons (p : NodeID) (op : Op NodeID Impl) (ops : List (Op NodeID Impl)) :
    allocCount p (op :: ops) = allocCount p [op] + allocCount p ops := by
  simp only [allocCount, List.countP_cons, List.countP_nil]
  omega

theorem outstanding_applyOps (p : NodeID) (v : uint32) (h : uint8) (r : uint32) (impl : Impl)
    (ops : List (Op NodeID Impl)) (n : NetworkManager NodeID Impl) (j : Nat)
    (hout : n.outstanding p v h r impl j)
    (hops : ∀ op ∈ ops, op.resolves p v = false ∧ op.setsHandler h = false)
    (hj : j + allocCount p ops < 4294967296) :
    (applyOps n ops).outstanding p v h r impl (j + allocCount p ops) := by
  induction ops generalizing n j with
  | nil => simpa [applyOps, allocCount] using hout
  | cons op rest ih =>
    rw [allocCount_cons] at hj ⊢
    have hop := hops op (List.mem_cons_self _ _)
    have h1 := outstanding_apply n p v h r impl j op hout hop.1 hop.2 (by omega)
    have h2 := ih (op.apply n) (j + allocCount p [op]) h1
      (fun o ho => hops o (List.mem_cons_of_mem _ ho)) (by omega)
    simp only [applyOps, List.foldl_cons]
    rw [← Nat.add_assoc]
    exact h2

theorem dispatch_of_outstanding (n : NetworkManager NodeID Impl) (p : NodeID) (v : uint32)
    (h : uint8) (r : uint32) (impl : Impl) (j : Nat) (b : List uint8)
    (hout : n.outstanding p v h r impl j) :
    (n.AppResponse p v b).2 =
      (Dispatch.invoke (some impl) (Callback.AppResponse p r b) :
        Dispatch NodeID ChainID Time Version Impl) ∧
    (n.AppRequestFailed p v).2 =
      (Dispatch.invoke (some impl) (Callback.AppRequestFailed p r) :
        Dispatch NodeID ChainID Time Version Impl) := by
  obtain ⟨obj, o1, o2, -, o4⟩ := hout
  have hh := handleSharedRequestID_mapping n p v obj ⟨h, r⟩ o1 o2
  constructor
  · simp only [NetworkManager.AppResponse, hh, o4]
  · simp only [NetworkManager.AppRequestFailed, hh, o4]
/-! ## C1 -/

/-- C1: in every state where handler id `h` is bound to implementation `impl`,
when `h`'s sender's `SendAppRequest` to peer `p` with real id `r` allocates
virtual id `v` (the value of `getSharedRequestID h p r`, carried by the one
transport send), then after any further operations (registrations, bindings of
other ids, allocations by any handler for any peer, resolutions of other
virtual ids) that contain no resolution of `(p, v)`, no `SetHandler` for `h`
and fewer than `2^32` allocations for `p`, the next `AppResponse p v b` ends in
the single callback `impl.AppResponse p r b`, and `AppRequestFailed p v` in the
single callback `impl.AppRequestFailed p r`.  Scenario: on a fresh manager,
handlers A (id 0) and B (id 1) both send real id 7 to peer X, A first; the
sends carry virtual ids 0 and 1, and a response for virtual id 0 invokes A with
request id 7. -/
theorem C1_response_reaches_allocating_handler :
    (∀ (n : NetworkManager NodeID Impl) (h : uint8) (impl : Impl) (p : NodeID) (r : uint32)
        (b P : List uint8) (sender : Send NodeID ChainID → Option Err)
        (ops : List (Op NodeID Impl)),
      n.handlers h = some (some impl) →
      (∀ op ∈ ops, op.resolves p (n.getSharedRequestID h p r).2 = false ∧
        op.setsHandler h = false) →
      allocCount p ops < 4294967296 →
      (WrappedAppSender.SendAppRequest ⟨h⟩ sender n [p] r P).1 = (n.getSharedRequestID h p r).1 ∧
      (WrappedAppSender.SendAppRequest ⟨h⟩ sender n [p] r P).2.1 =
        [Send.SendAppRequest [p] (n.getSharedRequestID h p r).2 (P ++ [h])] ∧
      ((applyOps (n.getSharedRequestID h p r).1 ops).AppResponse p
          (n.getSharedRequestID h p r).2 b).2 =
        (Dispatch.invoke (some impl) (Callback.AppResponse p r b) :
          Dispatch NodeID ChainID Time Version Impl) ∧
      ((applyOps (n.getSharedRequestID h p r).1 ops).AppRequestFailed p
          (n.getSharedRequestID h p r).2).2 =
        (Dispatch.invoke (some impl) (Callback.AppRequestFailed p r) :
          Dispatch NodeID ChainID Time Version Impl)) ∧
    (∀ (A B : Impl) (X : NodeID) (b PA PB : List uint8)
        (sender : Send NodeID ChainID → Option Err),
      let ra := (NewNetworkManager : NetworkManager NodeID Impl).Register
      let rb := ra.1.Register
      let m := (rb.1.SetHandler ra.2.1 (some A)).SetHandler rb.2.1 (some B)
      let sa := ra.2.2.SendAppRequest sender m [X] 7 PA
      let sb := rb.2.2.SendAppRequest sender sa.1 [X] 7 PB
      ra.2.1 = 0 ∧ rb.2.1 = 1 ∧
      sa.2.1 = [Send.SendAppRequest [X] 0 (PA ++ [0])] ∧
      sb.2.1 = [Send.SendAppRequest [X] 1 (PB ++ [1])] ∧
      (sb.1.AppResponse X 0 b).2 =
        (Dispatch.invoke (some A) (Callback.AppResponse X 7 b) :
          Dispatch NodeID ChainID Time Version Impl)) := by
  refine ⟨?_, ?_⟩
  · intro n h impl p r b P sender ops hb hops hcount
    have hsingle := SendAppRequest_single ⟨h⟩ sender n p r P
    have hout := outstanding_applyOps p (n.getSharedRequestID h p r).2 h r impl ops
      (n.getSharedRequestID h p r).1 0 (outstanding_getSharedRequestID n h impl p r hb) hops
      (by omega)
    have hd := @dispatch_of_outstanding NodeID ChainID Time Version Impl _ _ p _ h r impl _ b
      hout
    exact ⟨hsingle.1, hsingle.2, hd.1, hd.2⟩
  · intro A B X b PA PB sender
    have h01 : (0 : uint8) ≠ 1 := by decide
    have h10 : (1 : uint8) ≠ 0 := by decide
    have hi0 : incrUint8 0 = 1 := by decide
    have hj0 : incrUint32 0 = 1 := by decide
    have hk : (1 : uint32) ≠ 0 := by decide
    refine ⟨rfl, ?_, ?_, ?_, ?_⟩
    · simp [NetworkManager.Register, NewNetworkManager, hi0]
    · simp only [WrappedAppSender.SendAppRequest, WrappedAppSender.sendAppRequestLoop]
      cases sender _ <;>
        simp [NetworkManager.getSharedRequestID, NetworkManager.Register, NewNetworkManager,
          NetworkManager.SetHandler, hi0]
    · simp only [WrappedAppSender.SendAppRequest, WrappedAppSender.sendAppRequestLoop]
      cases sender _ <;> cases sender _ <;>
        simp [NetworkManager.getSharedRequestID, NetworkManager.Register, NewNetworkManager,
          NetworkManager.SetHandler, hi0, hj0]
    · simp only [WrappedAppSender.SendAppRequest, WrappedAppSender.sendAppRequestLoop]
      cases sender _ <;> cases sender _ <;>
        simp [NetworkManager.getSharedRequestID, NetworkManager.Register, NewNetworkManager,
          NetworkManager.SetHandler, hi0, hj0, NetworkManager.AppResponse,
          NetworkManager.handleSharedRequestID, Function.update_apply, h01, h10, hk]

theorem C1_response_reaches_allocating_handler_witness :
    (((NewNetworkManager : NetworkManager Nat Nat).Register.1.SetHandler 0 (some 11)).handlers 0
        = some (some 11) ∧
      (∀ op ∈ ([Op.getSharedRequestID 1 5 7, Op.handleSharedRequestID 5 1, Op.Register,
          Op.getSharedRequestID 0 5 7] : List (Op Nat Nat)),
        op.resolves 5 (((NewNetworkManager : NetworkManager Nat Nat).Register.1.SetHandler 0
          (some 11)).getSharedRequestID 0 5 7).2 = false ∧ op.setsHandler 0 = false) ∧
      allocCount 5 ([Op.getSharedRequestID 1 5 7, Op.handleSharedRequestID 5 1, Op.Register,
          Op.getSharedRequestID 0 5 7] : List (Op Nat Nat)) < 4294967296) ∧
    ((applyOps (((NewNetworkManager : NetworkManager Nat Nat).Register.1.SetHandler 0
        (some 11)).getSharedRequestID 0 5 7).1
        [Op.getSharedRequestID 1 5 7, Op.handleSharedRequestID 5 1, Op.Register,
          Op.getSharedRequestID 0 5 7]).AppResponse 5
        (((NewNetworkManager : NetworkManager Nat Nat).Register.1.SetHandler 0
          (some 11)).getSharedRequestID 0 5 7).2 [1, 2]).2 =
      (Dispatch.invoke (some 11) (Callback.AppResponse 5 7 [1, 2]) :
        Dispatch Nat Nat Nat Nat Nat) :=
  ⟨⟨by decide, by decide, by decide⟩,
    ((@C1_response_reaches_allocating_handler Nat Nat Nat Nat Nat Nat _).1
      ((NewNetworkManager : NetworkManager Nat Nat).Register.1.SetHandler 0 (some 11))
      0 11 5 7 [1, 2] [] (fun _ => none)
      [Op.getSharedRequestID 1 5 7, Op.handleSharedRequestID 5 1, Op.Register,
        Op.getSharedRequestID 0 5 7]
      (by decide) (by decide) (by decide)).2.2.1⟩

end Survive

section LockScopeRead
variable {NodeID ChainID Time Version Impl Err : Type}

/-! ## Lock scope -/

theorem fanOutTraced_spec (n : NetworkManager NodeID Impl)
    (run : Impl → Callback NodeID ChainID Time Version → Option Err)
    (cb : Callback NodeID ChainID Time Version) (order : List uint8) :
    tracedAs (n.fanOutTraced run cb order) (n.fanOut run cb order)
      ((n.fanOut run cb order).calls.map (fun c => c.2)) [] := by
  induction order with
  | nil => exact ⟨rfl, rfl, rfl⟩
  | cons k rest ih =>
    obtain ⟨i1, i2, i3⟩ := ih
    simp only [NetworkManager.fanOutTraced, NetworkManager.fanOut]
    cases n.handlers k with
    | none => exact ⟨i1, i2, i3⟩
    | some handler =>
      cases handler with
      | none => exact ⟨rfl, rfl, rfl⟩
      | some impl =>
        cases hr : run impl cb with
        | none =>
          refine ⟨?_, ?_, ?_⟩
          · simp only [hr, i1]
          · simp only [hr, callbacksOf, i2, List.map_cons]
          · simp only [hr, sendsOf, i3]
        | some err =>
          refine ⟨?_, ?_, ?_⟩
          · simp only [hr, i1]
          · simp only [hr, callbacksOf, i2, List.map_cons]
          · simp only [hr, sendsOf, i3]

theorem fanOutTraced_held (n : NetworkManager NodeID Impl)
    (run : Impl → Callback NodeID ChainID Time Version → Option Err)
    (cb : Callback NodeID ChainID Time Version) (order : List uint8)
    (rest : List (LockEvent NodeID ChainID Time Version Impl)) (held : Nat) :
    callsUnderLock (held + 1) ((n.fanOutTraced run cb order).2 ++ rest)
      = callsUnderLock (held + 1) rest ∧
    ((n.fanOutTraced run cb order).2 ≠ [] →
      callsOutsideLock (held + 1) ((n.fanOutTraced run cb order).2 ++ rest) = false) := by
  induction order with
  | nil => exact ⟨rfl, fun h => absurd rfl h⟩
  | cons k tl ih =>
    simp only [NetworkManager.fanOutTraced]
    cases n.handlers k with
    | none => exact ih
    | some handler =>
      cases handler with
      | none => exact ⟨rfl, fun h => absurd rfl h⟩
      | some impl =>
        cases hr : run impl cb with
        | none =>
          refine ⟨?_, fun _ => ?_⟩
          · simp only [hr, List.cons_append, callsUnderLock, ih.1]
            simp
          · simp [hr, callsOutsideLock]
        | some err =>
          refine ⟨?_, fun _ => ?_⟩
          · simp only [hr, List.cons_append, callsUnderLock, ih.1]
            simp
          · simp [hr, callsOutsideLock]

theorem fanOut_lock_scope (n : NetworkManager NodeID Impl)
    (run : Impl → Callback NodeID ChainID Time Version → Option Err)
    (cb : Callback NodeID ChainID Time Version) (order : List uint8) :
    callsUnderLock 0 (deferRUnlock (n.fanOutTraced run cb order).2) = true ∧
    ((n.fanOut run cb order).calls ≠ [] →
      callsOutsideLock 0 (deferRUnlock (n.fanOutTraced run cb order).2) = false) := by
  obtain ⟨h1, h2⟩ := fanOutTraced_held n run cb order [LockEvent.RUnlock] 0
  obtain ⟨-, s2, -⟩ := fanOutTraced_spec n run cb order
  refine ⟨?_, ?_⟩
  · show callsUnderLock (0 + 1) ((n.fanOutTraced run cb order).2 ++ [LockEvent.RUnlock]) = true
    rw [h1]
    rfl
  · intro hne
    show callsOutsideLock (0 + 1) ((n.fanOutTraced run cb order).2 ++ [LockEvent.RUnlock])
      = false
    apply h2
    intro hnil
    rw [hnil] at s2
    apply hne
    have : List.map (fun c => c.2) (n.fanOut run cb order).calls = [] := by
      rw [← s2]; rfl
    exact List.map_eq_nil_iff.mp this

theorem AppGossipTraced_spec (n : NetworkManager NodeID Impl) (nodeID : NodeID) (msg : List uint8) :
    @tracedAs NodeID ChainID Time Version Impl _ (n.AppGossipTraced nodeID msg) (n.AppGossip nodeID msg)
      (n.AppGossip nodeID msg).2.calls [] ∧
    @callsOutsideLock NodeID ChainID Time Version Impl 0 (n.AppGossipTraced nodeID msg).2 = true := by
  simp only [NetworkManager.AppGossipTraced, NetworkManager.AppGossip,
    NetworkManager.routeIncomingMessageTraced]
  rcases n.routeIncomingMessage msg with ⟨parsed, handler, ok⟩
  cases ok <;> cases handler <;> exact ⟨⟨rfl, rfl, rfl⟩, rfl⟩

theorem AppRequestTraced_spec (n : NetworkManager NodeID Impl) (nodeID : NodeID) (requestID : uint32) (deadline : Time)
    (msg : List uint8) :
    @tracedAs NodeID ChainID Time Version Impl _ (n.AppRequestTraced nodeID requestID deadline msg) (n.AppRequest nodeID requestID deadline msg)
      (n.AppRequest nodeID requestID deadline msg).2.calls [] ∧
    @callsOutsideLock NodeID ChainID Time Version Impl 0 (n.AppRequestTraced nodeID requestID deadline msg).2 = true := by
  simp only [NetworkManager.AppRequestTraced, NetworkManager.AppRequest,
    NetworkManager.routeIncomingMessageTraced]
  rcases n.routeIncomingMessage msg with ⟨parsed, handler, ok⟩
  cases ok <;> cases handler <;> exact ⟨⟨rfl, rfl, rfl⟩, rfl⟩

theorem CrossChainAppRequestTraced_spec (n : NetworkManager NodeID Impl) (chainID : ChainID) (requestID : uint32) (deadline : Time)
    (msg : List uint8) :
    @tracedAs NodeID ChainID Time Version Impl _ (n.CrossChainAppRequestTraced chainID requestID deadline msg) (n.CrossChainAppRequest chainID requestID deadline msg)
      (n.CrossChainAppRequest chainID requestID deadline msg).2.calls [] ∧
    @callsOutsideLock NodeID ChainID Time Version Impl 0 (n.CrossChainAppRequestTraced chainID requestID deadline msg).2 = true := by
  simp only [NetworkManager.CrossChainAppRequestTraced, NetworkManager.CrossChainAppRequest,
    NetworkManager.routeIncomingMessageTraced]
  rcases n.routeIncomingMessage msg with ⟨parsed, handler, ok⟩
  cases ok <;> cases handler <;> exact ⟨⟨rfl, rfl, rfl⟩, rfl⟩

theorem callbacksOf_deferRUnlock (ev : List (LockEvent NodeID ChainID Time Version Impl)) :
    callbacksOf (deferRUnlock ev) = callbacksOf ev ∧ sendsOf (deferRUnlock ev) = sendsOf ev := by
  have h : callbacksOf (ev ++ [LockEvent.RUnlock]) = callbacksOf ev ∧
      sendsOf (ev ++ [LockEvent.RUnlock]) = sendsOf ev := by
    induction ev with
    | nil => exact ⟨rfl, rfl⟩
    | cons e rest ih =>
      have i1 : callbacksOf (rest.append [LockEvent.RUnlock]) = callbacksOf rest := ih.1
      have i2 : sendsOf (rest.append [LockEvent.RUnlock]) = sendsOf rest := ih.2
      cases e <;> simp only [List.cons_append, callbacksOf, sendsOf] <;>
        first
          | exact ⟨i1, i2⟩
          | exact ⟨congrArg _ i1, i2⟩
          | exact ⟨i1, congrArg _ i2⟩
  exact h
end LockScopeRead

section LockScope
variable {NodeID ChainID Time Version Impl Err : Type} [DecidableEq NodeID]

theorem sendAppRequestLoopTraced_spec (w : WrappedAppSender)
    (sender : Send NodeID ChainID → Option Err) (r : uint32) (bytes : List uint8)
    (n : NetworkManager NodeID Impl) (nodeIDs : List NodeID) :
    @tracedAs NodeID ChainID Time Version Impl _
      (w.sendAppRequestLoopTraced sender r bytes n nodeIDs)
      (w.sendAppRequestLoop sender r bytes n nodeIDs) []
      (w.sendAppRequestLoop sender r bytes n nodeIDs).2.1 ∧
    @callsOutsideLock NodeID ChainID Time Version Impl 0
      (w.sendAppRequestLoopTraced sender r bytes n nodeIDs).2 = true := by
  induction nodeIDs generalizing n with
  | nil => exact ⟨⟨rfl, rfl, rfl⟩, rfl⟩
  | cons q rest ih =>
    simp only [WrappedAppSender.sendAppRequestLoopTraced, WrappedAppSender.sendAppRequestLoop,
      NetworkManager.getSharedRequestIDTraced]
    cases sender _ with
    | some e => exact ⟨⟨rfl, rfl, rfl⟩, rfl⟩
    | none =>
      obtain ⟨⟨i1, i2, i3⟩, i4⟩ := ih (n.getSharedRequestID w.handler q r).1
      refine ⟨⟨?_, ?_, ?_⟩, ?_⟩
      · simp only [i1]
      · simpa [deferUnlock, callbacksOf] using i2
      · simpa [deferUnlock, sendsOf] using i3
      · simpa [deferUnlock, callsOutsideLock] using i4

theorem AppRequestFailedTraced_spec (n : NetworkManager NodeID Impl) (nodeID : NodeID) (requestID : uint32) :
    @tracedAs NodeID ChainID Time Version Impl _ (n.AppRequestFailedTraced nodeID requestID) (n.AppRequestFailed nodeID requestID)
      (n.AppRequestFailed nodeID requestID).2.calls [] ∧
    @callsOutsideLock NodeID ChainID Time Version Impl 0 (n.AppRequestFailedTraced nodeID requestID).2 = true := by
  simp only [NetworkManager.AppRequestFailedTraced, NetworkManager.AppRequestFailed,
    NetworkManager.handleSharedRequestIDTraced]
  rcases n.handleSharedRequestID nodeID requestID with ⟨n1, handler, c, ok⟩
  cases ok <;> cases handler <;> exact ⟨⟨rfl, rfl, rfl⟩, rfl⟩

theorem AppResponseTraced_spec (n : NetworkManager NodeID Impl) (nodeID : NodeID) (requestID : uint32) (response : List uint8) :
    @tracedAs NodeID ChainID Time Version Impl _ (n.AppResponseTraced nodeID requestID response) (n.AppResponse nodeID requestID response)
      (n.AppResponse nodeID requestID response).2.calls [] ∧
    @callsOutsideLock NodeID ChainID Time Version Impl 0 (n.AppResponseTraced nodeID requestID response).2 = true := by
  simp only [NetworkManager.AppResponseTraced, NetworkManager.AppResponse,
    NetworkManager.handleSharedRequestIDTraced]
  rcases n.handleSharedRequestID nodeID requestID with ⟨n1, handler, c, ok⟩
  cases ok <;> cases handler <;> exact ⟨⟨rfl, rfl, rfl⟩, rfl⟩

theorem CrossChainAppRequestFailedTraced_spec (n : NetworkManager NodeID Impl) (EmptyNodeID : NodeID) (chainID : ChainID) (requestID : uint32) :
    @tracedAs NodeID ChainID Time Version Impl _ (NetworkManager.CrossChainAppRequestFailedTraced EmptyNodeID n chainID requestID) (NetworkManager.CrossChainAppRequestFailed EmptyNodeID n chainID requestID)
      (NetworkManager.CrossChainAppRequestFailed EmptyNodeID n chainID requestID).2.calls [] ∧
    @callsOutsideLock NodeID ChainID Time Version Impl 0 (NetworkManager.CrossChainAppRequestFailedTraced EmptyNodeID n chainID requestID).2 = true := by
  simp only [NetworkManager.CrossChainAppRequestFailedTraced, NetworkManager.CrossChainAppRequestFailed,
    NetworkManager.handleSharedRequestIDTraced]
  rcases n.handleSharedRequestID EmptyNodeID requestID with ⟨n1, handler, c, ok⟩
  cases ok <;> cases handler <;> exact ⟨⟨rfl, rfl, rfl⟩, rfl⟩

theorem CrossChainAppResponseTraced_spec (n : NetworkManager NodeID Impl) (EmptyNodeID : NodeID) (chainID : ChainID) (requestID : uint32)
    (response : List uint8) :
    @tracedAs NodeID ChainID Time Version Impl _ (NetworkManager.CrossChainAppResponseTraced EmptyNodeID n chainID requestID response) (NetworkManager.CrossChainAppResponse EmptyNodeID n chainID requestID response)
      (NetworkManager.CrossChainAppResponse EmptyNodeID n chainID requestID response).2.calls [] ∧
    @callsOutsideLock NodeID ChainID Time Version Impl 0 (NetworkManager.CrossChainAppResponseTraced EmptyNodeID n chainID requestID response).2 = true := by
  simp only [NetworkManager.CrossChainAppResponseTraced, NetworkManager.CrossChainAppResponse,
    NetworkManager.handleSharedRequestIDTraced]
  rcases n.handleSharedRequestID EmptyNodeID requestID with ⟨n1, handler, c, ok⟩
  cases ok <;> cases handler <;> exact ⟨⟨rfl, rfl, rfl⟩, rfl⟩

/-! ## C20 -/

/-- C20 (amended): every method, embedded together with its operations on the
lock, yields the result of its embedding above and performs exactly that
embedding's handler callbacks and transport sends.  In every entry point other
than `Connected` and `Disconnected` (`Register`, `SetHandler`, the seven
inbound dispatch methods, `SendAppRequest` and the pass-through senders) each
handler callback and each transport send happens while the manager-wide lock
is not held.  `Connected` and `Disconnected` take the read lock at entry with
a deferred release and invoke every handler callback while holding it; so
whenever they invoke a callback, it is not outside the lock. -/
theorem C20_lock_scope (EmptyNodeID : NodeID) (n : NetworkManager NodeID Impl)
    (w : WrappedAppSender) (sender : Send NodeID ChainID → Option Err)
    (run : Impl → Callback NodeID ChainID Time Version → Option Err) (msg P : List uint8)
    (nodeID : NodeID) (chainID : ChainID) (nodeIDs : List NodeID) (requestID : uint32)
    (deadline : Time) (v : Version) (order : List uint8) (handler : uint8)
    (h : NetworkHandler Impl) :
    (@tracedAs NodeID ChainID Time Version Impl _ n.RegisterTraced n.Register [] [] ∧
      @tracedAs NodeID ChainID Time Version Impl _ (n.SetHandlerTraced handler h)
        (n.SetHandler handler h) [] [] ∧
      @tracedAs NodeID ChainID Time Version Impl _ (n.AppGossipTraced nodeID msg)
        (n.AppGossip nodeID msg) (n.AppGossip nodeID msg).2.calls [] ∧
      @tracedAs NodeID ChainID Time Version Impl _
        (n.AppRequestTraced nodeID requestID deadline msg)
        (n.AppRequest nodeID requestID deadline msg)
        (n.AppRequest nodeID requestID deadline msg).2.calls [] ∧
      @tracedAs NodeID ChainID Time Version Impl _
        (n.CrossChainAppRequestTraced chainID requestID deadline msg)
        (n.CrossChainAppRequest chainID requestID deadline msg)
        (n.CrossChainAppRequest chainID requestID deadline msg).2.calls [] ∧
      @tracedAs NodeID ChainID Time Version Impl _ (n.AppRequestFailedTraced nodeID requestID)
        (n.AppRequestFailed nodeID requestID) (n.AppRequestFailed nodeID requestID).2.calls [] ∧
      @tracedAs NodeID ChainID Time Version Impl _ (n.AppResponseTraced nodeID requestID P)
        (n.AppResponse nodeID requestID P) (n.AppResponse nodeID requestID P).2.calls [] ∧
      @tracedAs NodeID ChainID Time Version Impl _
        (NetworkManager.CrossChainAppRequestFailedTraced EmptyNodeID n chainID requestID)
        (NetworkManager.CrossChainAppRequestFailed EmptyNodeID n chainID requestID)
        (NetworkManager.CrossChainAppRequestFailed EmptyNodeID n chainID requestID).2.calls [] ∧
      @tracedAs NodeID ChainID Time Version Impl _
        (NetworkManager.CrossChainAppResponseTraced EmptyNodeID n chainID requestID P)
        (NetworkManager.CrossChainAppResponse EmptyNodeID n chainID requestID P)
        (NetworkManager.CrossChainAppResponse EmptyNodeID n chainID requestID P).2.calls [] ∧
      @tracedAs NodeID ChainID Time Version Impl _
        (w.SendAppRequestTraced sender n nodeIDs requestID P)
        (w.SendAppRequest sender n nodeIDs requestID P) []
        (w.SendAppRequest sender n nodeIDs requestID P).2.1 ∧
      @tracedAs NodeID ChainID Time Version Impl _
        (w.SendAppResponseTraced sender nodeID requestID P)
        (w.SendAppResponse sender nodeID requestID P) []
        (w.SendAppResponse sender nodeID requestID P).1 ∧
      @tracedAs NodeID ChainID Time Version Impl _ (w.SendAppGossipTraced sender P)
        (w.SendAppGossip sender P) [] (w.SendAppGossip sender P).1 ∧
      @tracedAs NodeID ChainID Time Version Impl _
        (w.SendAppGossipSpecificTraced sender nodeIDs P)
        (w.SendAppGossipSpecific sender nodeIDs P) []
        (w.SendAppGossipSpecific sender nodeIDs P).1 ∧
      @tracedAs NodeID ChainID Time Version Impl _
        (w.SendCrossChainAppRequestTraced sender n chainID requestID P)
        (w.SendCrossChainAppRequest sender n chainID requestID P) []
        (w.SendCrossChainAppRequest sender n chainID requestID P).2.1 ∧
      @tracedAs NodeID ChainID Time Version Impl _
        (w.SendCrossChainAppResponseTraced sender chainID requestID P)
        (w.SendCrossChainAppResponse sender chainID requestID P) []
        (w.SendCrossChainAppResponse sender chainID requestID P).1 ∧
      @tracedAs NodeID ChainID Time Version Impl _ (n.ConnectedTraced order run nodeID v)
        (n.Connected order run nodeID v)
        ((n.Connected order run nodeID v).2.calls.map (fun c => c.2)) [] ∧
      @tracedAs NodeID ChainID Time Version Impl _ (n.DisconnectedTraced order run nodeID)
        (n.Disconnected order run nodeID)
        ((n.Disconnected order run nodeID).2.calls.map (fun c => c.2)) []) ∧
    (∀ ev ∈ ([n.RegisterTraced.2, (n.SetHandlerTraced handler h).2,
        (n.AppGossipTraced nodeID msg).2, (n.AppRequestTraced nodeID requestID deadline msg).2,
        (n.CrossChainAppRequestTraced chainID requestID deadline msg).2,
        (n.AppRequestFailedTraced nodeID requestID).2, (n.AppResponseTraced nodeID requestID P).2,
        (NetworkManager.CrossChainAppRequestFailedTraced EmptyNodeID n chainID requestID).2,
        (NetworkManager.CrossChainAppResponseTraced EmptyNodeID n chainID requestID P).2,
        (w.SendAppRequestTraced sender n nodeIDs requestID P).2,
        (w.SendAppResponseTraced sender nodeID requestID P).2,
        (w.SendAppGossipTraced sender P).2, (w.SendAppGossipSpecificTraced sender nodeIDs P).2,
        (w.SendCrossChainAppRequestTraced sender n chainID requestID P).2,
        (w.SendCrossChainAppResponseTraced sender chainID requestID P).2] :
          List (List (LockEvent NodeID ChainID Time Version Impl))),
      callsOutsideLock 0 ev = true) ∧
    (callsUnderLock 0 (n.ConnectedTraced order run nodeID v).2 = true ∧
      callsUnderLock 0 (n.DisconnectedTraced order run nodeID).2 = true ∧
      ((n.Connected order run nodeID v).2.calls ≠ [] →
        callsOutsideLock 0 (n.ConnectedTraced order run nodeID v).2 = false) ∧
      ((n.Disconnected order run nodeID).2.calls ≠ [] →
        callsOutsideLock 0 (n.DisconnectedTraced order run nodeID).2 = false)) := by
  have hloop := @sendAppRequestLoopTraced_spec NodeID ChainID Time Version Impl Err _ w sender
    requestID (P ++ [w.handler]) n nodeIDs
  have hc := fanOutTraced_spec n run (Callback.Connected nodeID v) order
  have hd := fanOutTraced_spec n run (Callback.Disconnected nodeID) order
  have lc := fanOut_lock_scope n run (Callback.Connected nodeID v) order
  have ld := fanOut_lock_scope n run (Callback.Disconnected nodeID) order
  refine ⟨⟨⟨rfl, rfl, rfl⟩, ⟨rfl, rfl, rfl⟩, (AppGossipTraced_spec n nodeID msg).1,
    (AppRequestTraced_spec n nodeID requestID deadline msg).1,
    (CrossChainAppRequestTraced_spec n chainID requestID deadline msg).1,
    (AppRequestFailedTraced_spec n nodeID requestID).1,
    (AppResponseTraced_spec n nodeID requestID P).1,
    (CrossChainAppRequestFailedTraced_spec n EmptyNodeID chainID requestID).1,
    (CrossChainAppResponseTraced_spec n EmptyNodeID chainID requestID P).1,
    hloop.1, ⟨rfl, rfl, rfl⟩, ⟨rfl, rfl, rfl⟩, ⟨rfl, rfl, rfl⟩, ⟨rfl, rfl, rfl⟩, ⟨rfl, rfl, rfl⟩,
    ?_, ?_⟩, ?_, ⟨lc.1, ld.1, lc.2, ld.2⟩⟩
  · refine ⟨by simp only [NetworkManager.ConnectedTraced, NetworkManager.Connected, hc.1],
      ?_, ?_⟩
    · exact (callbacksOf_deferRUnlock _).1.trans hc.2.1
    · exact (callbacksOf_deferRUnlock _).2.trans hc.2.2
  · refine ⟨by simp only [NetworkManager.DisconnectedTraced, NetworkManager.Disconnected, hd.1],
      ?_, ?_⟩
    · exact (callbacksOf_deferRUnlock _).1.trans hd.2.1
    · exact (callbacksOf_deferRUnlock _).2.trans hd.2.2
  · intro ev hev
    simp only [List.mem_cons, List.mem_singleton, List.not_mem_nil, or_false] at hev
    rcases hev with e | e | e | e | e | e | e | e | e | e | e | e | e | e | e <;> rw [e]
    · rfl
    · rfl
    · exact (AppGossipTraced_spec n nodeID msg).2
    · exact (AppRequestTraced_spec n nodeID requestID deadline msg).2
    · exact (CrossChainAppRequestTraced_spec n chainID requestID deadline msg).2
    · exact (AppRequestFailedTraced_spec n nodeID requestID).2
    · exact (AppResponseTraced_spec n nodeID requestID P).2
    · exact (CrossChainAppRequestFailedTraced_spec n EmptyNodeID chainID requestID).2
    · exact (CrossChainAppResponseTraced_spec n EmptyNodeID chainID requestID P).2
    · exact hloop.2
    · rfl
    · rfl
    · rfl
    · rfl
    · rfl

theorem C20_lock_scope_witness :
    (exampleThree.Connected [0, 1, 2] (fun _ _ => (none : Option Nat)) 5 (3 : Nat) :
      NetworkManager Nat Nat × FanOut Nat Nat Nat Nat Nat Nat).2.calls ≠ [] ∧
    callsOutsideLock 0
      (exampleThree.ConnectedTraced [0, 1, 2] (fun _ _ => (none : Option Nat)) 5 (3 : Nat) :
        (NetworkManager Nat Nat × FanOut Nat Nat Nat Nat Nat Nat) ×
          List (LockEvent Nat Nat Nat Nat Nat)).2 = false ∧
    callsUnderLock 0
      (exampleThree.ConnectedTraced [0, 1, 2] (fun _ _ => (none : Option Nat)) 5 (3 : Nat) :
        (NetworkManager Nat Nat × FanOut Nat Nat Nat Nat Nat Nat) ×
          List (LockEvent Nat Nat Nat Nat Nat)).2 = true :=
  ⟨by decide,
    (@C20_lock_scope Nat Nat Nat Nat Nat Nat _ 0 exampleThree ⟨0⟩ (fun _ => none)
      (fun _ _ => none) [] [] 5 4 [] 0 0 3 [0, 1, 2] 0 none).2.2.2.2.1 (by decide),
    (@C20_lock_scope Nat Nat Nat Nat Nat Nat _ 0 exampleThree ⟨0⟩ (fun _ => none)
      (fun _ _ => none) [] [] 5 4 [] 0 0 3 [0, 1, 2] 0 none).2.2.1⟩

/-- The claim C20 as stated fails for the fan-out: with handlers 0, 1 and 2
bound, `Connected` takes the read lock, invokes the three callbacks and only
then releases it, and so does `Disconnected`. -/
theorem C20_Connected_holds_lock_counterexample :
    exampleThree.handlers 0 = some (some 10) ∧
    (exampleThree.ConnectedTraced [0, 1, 2] (fun _ _ => (none : Option Nat)) 5 (3 : Nat) :
      (NetworkManager Nat Nat × FanOut Nat Nat Nat Nat Nat Nat) ×
        List (LockEvent Nat Nat Nat Nat Nat)).2 =
      [LockEvent.RLock, LockEvent.callback 10 (Callback.Connected 5 3),
        LockEvent.callback 11 (Callback.Connected 5 3),
        LockEvent.callback 12 (Callback.Connected 5 3), LockEvent.RUnlock] ∧
    callsOutsideLock 0
      (exampleThree.ConnectedTraced [0, 1, 2] (fun _ _ => (none : Option Nat)) 5 (3 : Nat) :
        (NetworkManager Nat Nat × FanOut Nat Nat Nat Nat Nat Nat) ×
          List (LockEvent Nat Nat Nat Nat Nat)).2 = false ∧
    callsOutsideLock 0
      (exampleThree.DisconnectedTraced [0, 1, 2] (fun _ _ => (none : Option Nat)) 5 :
        (NetworkManager Nat Nat × FanOut Nat Nat Nat Nat Nat Nat) ×
          List (LockEvent Nat Nat Nat Nat Nat)).2 = false := by
  refine ⟨by decide, by decide, by decide, by decide⟩
end LockScope

end vm
